import Mathlib

/-! The realtime command bridge of `server/common/server.js`.

A shallow embedding of `WebAppServer` (socket.io bridge and the two credential
routes) together with the part of the JavaScript platform its code relies on
(`toString`, `parseInt`, `JSON.parse`, the `in` operator, truthiness).

Modelling conventions.

* JavaScript values are the tree-shaped values `JsVal` (no functions, no shared
  references, arrays without holes).
* A finite number is a binary64 value, written as the shortest decimal that
  rounds to it; every conversion of a numeral (`parseInt`, `ToNumber`,
  `JSON.parse`) rounds to the nearest binary64 value, ties to even.
* Strings are sequences of Unicode scalar values.
* Code that can throw, or loop for ever, returns `Js α = Except Failure α`.
* Callbacks are data: a registered listener or a pending completion is a
  constructor naming the closure of the source, run by an explicit function.
-/

namespace Cdap

/-! ## Outcomes -/

/-- Abnormal outcomes of a piece of JavaScript: an uncaught exception, or a loop
that never exits. -/
inductive Failure where
  | typeError (msg : String)
  | syntaxError (msg : String)
  | nonTermination
  deriving DecidableEq, Repr

/-- Computations of the embedding. -/
abbrev Js := Except Failure

/-! ## Numbers -/

/-- Number values: `NaN`, the two infinities, and finite numbers written as a
decimal `(-1)^neg * mant * 10^exp` (`fin true 0 0` is `-0`). A binary64 value
is written as the shortest decimal that rounds to it, which is the decimal
`Number.prototype.toString` prints. -/
inductive JsNum where
  | nan
  | inf (neg : Bool)
  | fin (neg : Bool) (mant : Nat) (exp : Int)
  deriving DecidableEq, Repr

/-- Removes trailing decimal zeros of a non-zero mantissa, raising the exponent. -/
def stripZeros : Nat → Nat → Int → Nat × Int
  | 0, m, e => (m, e)
  | fuel + 1, m, e =>
    if m ≠ 0 ∧ m % 10 = 0 then stripZeros fuel (m / 10) (e + 1) else (m, e)

/-- The decimal `(-1)^neg * m * 10^e` without trailing zeros in its mantissa. -/
def JsNum.mk (neg : Bool) (m : Nat) (e : Int) : JsNum :=
  if m = 0 then .fin neg 0 0 else .fin neg (stripZeros m m e).1 (stripZeros m m e).2

/-- The number value of a natural number below `2 ^ 53`, such as the length of an
array or a string, or an index. -/
def JsNum.ofNat (n : Nat) : JsNum := JsNum.mk false n 0

/-- Number of binary digits of `n`, for `fuel` at least that number. -/
def bitLength : Nat → Nat → Nat
  | 0, _ => 0
  | fuel + 1, n => if n = 0 then 0 else bitLength fuel (n / 2) + 1

/-- A positive finite binary64 value `q * 2 ^ p`: normal when
`2 ^ 52 ≤ q < 2 ^ 53` and `-1074 ≤ p ≤ 971`, subnormal when `q < 2 ^ 52` and
`p = -1074`. -/
structure Binary64 where
  q : Nat
  p : Int
  deriving DecidableEq, Repr

/-- The binary64 value nearest to the positive rational `a / b`, ties to even:
`none` when it is beyond the largest finite value, `q = 0` when it rounds to
zero. -/
def roundBinary64 (a b : Nat) : Option Binary64 :=
  let t : Int := (bitLength a a : Int) - (bitLength b b : Int)
  let lg : Int :=
    if (if 0 ≤ t then b * 2 ^ t.toNat ≤ a else b ≤ a * 2 ^ (-t).toNat) then t else t - 1
  let p : Int := max (lg - 52) (-1074)
  let num := if 0 ≤ p then a else a * 2 ^ (-p).toNat
  let den := if 0 ≤ p then b * 2 ^ p.toNat else b
  let q0 := num / den
  let r := num % den
  let q := if den < 2 * r ∨ (2 * r = den ∧ q0 % 2 = 1) then q0 + 1 else q0
  let d : Binary64 := if q = 2 ^ 53 then ⟨2 ^ 52, p + 1⟩ else ⟨q, p⟩
  if 971 < d.p then none else some d

/-- The smallest `j`, from `j` on, with `b ≤ a * 10 ^ j`. -/
def smallestShift : Nat → Nat → Nat → Nat → Nat
  | 0, _, _, j => j
  | fuel + 1, a, b, j => if b ≤ a * 10 ^ j then j else smallestShift fuel a b (j + 1)

/-- The integer `floor (log10 (a / b))` of a positive rational. -/
def floorLog10 (a b : Nat) : Int :=
  if b ≤ a then ((Nat.toDigits 10 (a / b)).length : Int) - 1
  else -(smallestShift 400 a b 0 : Int)

/-- The binary64 value nearest to `s * 10 ^ t`. -/
def roundDecimal (s : Nat) (t : Int) : Option Binary64 :=
  if 0 ≤ t then roundBinary64 (s * 10 ^ t.toNat) 1 else roundBinary64 s (10 ^ (-t).toNat)

/-- The shortest decimal `s * 10 ^ t` that rounds to the binary64 value `d`, and
among those with as few digits the one closest to `d` (ES5 9.8.1, step 5):
tried with `k`, `k + 1`, ... digits. -/
def shortestDecimal : Nat → Nat → Binary64 → Nat × Int
  | 0, _, d => (d.q, d.p)
  | fuel + 1, k, d =>
    let a := if 0 ≤ d.p then d.q * 2 ^ d.p.toNat else d.q
    let b := if 0 ≤ d.p then 1 else 2 ^ (-d.p).toNat
    let t : Int := floorLog10 a b - k + 1
    let num := if 0 ≤ t then a else a * 10 ^ (-t).toNat
    let den := if 0 ≤ t then b * 10 ^ t.toNat else b
    let s1 := num / den
    let lo := num % den
    let ok1 : Bool := s1 ≠ 0 ∧ roundDecimal s1 t = some d
    let ok2 : Bool := roundDecimal (s1 + 1) t = some d
    if ok1 ∧ ok2 then
      (if lo < den - lo ∨ (lo = den - lo ∧ s1 % 2 = 0) then (s1, t) else (s1 + 1, t))
    else if ok1 then (s1, t)
    else if ok2 then (s1 + 1, t)
    else shortestDecimal fuel (k + 1) d

/-- The number value of the decimal `(-1)^neg * m * 10^e`: the nearest binary64
value, written as the shortest decimal that rounds to it (the digits that
`Number.prototype.toString` prints). Integers below `2 ^ 53` are binary64 values
and are written with their own digits. -/
def JsNum.ofDecimal (neg : Bool) (m : Nat) (e : Int) : JsNum :=
  if m = 0 then .fin neg 0 0
  else if 0 ≤ e ∧ m * 10 ^ e.toNat < 2 ^ 53 then JsNum.mk neg m e
  else
    match roundDecimal m e with
    | none => .inf neg
    | some d =>
      if d.q = 0 then .fin neg 0 0
      else JsNum.mk neg (shortestDecimal 17 1 d).1 (shortestDecimal 17 1 d).2

/-- Value of a string of decimal digits. -/
def digitsToNat (ds : List Char) : Nat :=
  ds.foldl (fun a c => 10 * a + (c.toNat - 48)) 0

/-- Number-to-string conversion (ES5 9.8.1), on the decimal digits of the value. -/
def JsNum.toString : JsNum → String
  | .nan => "NaN"
  | .inf neg => if neg then "-Infinity" else "Infinity"
  | .fin neg m e =>
    if m = 0 then "0" else
    let ds := Nat.toDigits 10 (stripZeros m m e).1
    let k : Int := ds.length
    let n : Int := k + (stripZeros m m e).2
    let body : List Char :=
      if k ≤ n ∧ n ≤ 21 then ds ++ List.replicate (n - k).toNat '0'
      else if 0 < n ∧ n ≤ 21 then ds.take n.toNat ++ '.' :: ds.drop n.toNat
      else if -6 < n ∧ n ≤ 0 then '0' :: '.' :: (List.replicate (-n).toNat '0' ++ ds)
      else
        let exs := (if n - 1 < 0 then '-' else '+') :: Nat.toDigits 10 (n - 1).natAbs
        match ds with
        | [] => []
        | [d] => d :: 'e' :: exs
        | d :: rest => d :: '.' :: (rest ++ 'e' :: exs)
    String.mk ((if neg then ['-'] else []) ++ body)

/-- The characters `StrWhiteSpaceChar` of ES5: white space and line terminators. -/
def isStrWhiteSpaceChar (c : Char) : Bool :=
  [0x9, 0xA, 0xB, 0xC, 0xD, 0x20, 0xA0, 0x1680, 0x180E, 0x2028, 0x2029,
    0x202F, 0x205F, 0x3000, 0xFEFF].contains c.toNat
    || (0x2000 ≤ c.toNat && c.toNat ≤ 0x200A)

/-- Value of a character as a digit (`0-9`, `a-z`, `A-Z`), if it is one. -/
def digitValue (c : Char) : Option Nat :=
  if '0' ≤ c ∧ c ≤ '9' then some (c.toNat - 48)
  else if 'a' ≤ c ∧ c ≤ 'z' then some (c.toNat - 87)
  else if 'A' ≤ c ∧ c ≤ 'Z' then some (c.toNat - 55)
  else none

/-- Whether `c` is a digit of radix `r`. -/
def isRadixDigit (r : Nat) (c : Char) : Bool :=
  match digitValue c with
  | some d => d < r
  | none => false

/-- Value of a string of radix-`r` digits. -/
def radixToNat (r : Nat) (ds : List Char) : Nat :=
  ds.foldl (fun a c => r * a + (digitValue c).getD 0) 0

/-- Removes an optional sign, reporting whether it was `-`. -/
def takeSign : List Char → Bool × List Char
  | '-' :: rest => (true, rest)
  | '+' :: rest => (false, rest)
  | cs => (false, cs)

/-- Removes a leading `0x` or `0X`. -/
def stripHex : List Char → List Char
  | '0' :: 'x' :: rest => rest
  | '0' :: 'X' :: rest => rest
  | cs => cs

/-- The global function `parseInt(string, radix)` (ES5 15.1.2.2) on a string:
leading white space and a sign are skipped, the longest prefix of radix digits
is read, and the result is `NaN` when that prefix is empty, and otherwise the
binary64 value nearest to the integer read. -/
def parseInt (string : String) (radix : Nat) : JsNum :=
  let s := takeSign (string.toList.dropWhile isStrWhiteSpaceChar)
  if radix ≠ 0 ∧ (radix < 2 ∨ 36 < radix) then .nan else
  let r := if radix = 0 then 10 else radix
  let body := if radix = 0 ∨ radix = 16 then stripHex s.2 else s.2
  let r := if radix = 0 ∧ body ≠ s.2 then 16 else r
  let z := body.takeWhile (isRadixDigit r)
  if z = [] then .nan else JsNum.ofDecimal s.1 (radixToNat r z) 0

/-- Optional exponent part `e±ddd` closing a decimal literal; `none` when the
rest of the text is not an exponent part. -/
def exponentPart : List Char → Option Int
  | [] => some 0
  | c :: rest =>
    if c = 'e' ∨ c = 'E' then
      let s := takeSign rest
      if s.2 ≠ [] ∧ s.2.all Char.isDigit then
        some (if s.1 then -(digitsToNat s.2 : Int) else digitsToNat s.2)
      else none
    else none

/-- The unsigned decimal literals of `StringToNumber`: `ddd`, `ddd.`, `ddd.ddd`,
`.ddd`, each with an optional exponent part. -/
def unsignedDecimal (neg : Bool) (cs : List Char) : JsNum :=
  let ip := cs.takeWhile Char.isDigit
  let r1 := cs.dropWhile Char.isDigit
  let fp := match r1 with
    | '.' :: r => r.takeWhile Char.isDigit
    | _ => []
  let r2 := match r1 with
    | '.' :: r => r.dropWhile Char.isDigit
    | r => r
  if ip = [] ∧ fp = [] then .nan else
  match exponentPart r2 with
  | some e => JsNum.ofDecimal neg (digitsToNat (ip ++ fp)) (e - fp.length)
  | none => .nan

/-- The conversion `ToNumber` applied to a string (ES5 9.3.1). -/
def stringToNumber (s : String) : JsNum :=
  let cs := ((s.toList.dropWhile isStrWhiteSpaceChar).reverse.dropWhile
    isStrWhiteSpaceChar).reverse
  if cs = [] then .fin false 0 0 else
  match cs with
  | '0' :: x :: hs =>
    if x = 'x' ∨ x = 'X' then
      if hs ≠ [] ∧ hs.all (isRadixDigit 16) then JsNum.ofDecimal false (radixToNat 16 hs) 0
      else .nan
    else unsignedDecimal false cs
  | _ =>
    let s := takeSign cs
    if s.2 = "Infinity".toList then .inf s.1 else unsignedDecimal s.1 s.2

/-- How often the body of `for (var i = 0; i < len; i++)` runs; `none` when the
condition never becomes false. -/
def loopCount : JsNum → Option Nat
  | .nan => some 0
  | .inf neg => if neg then some 0 else none
  | .fin neg m e =>
    if neg then some 0
    else if 0 ≤ e then some (m * 10 ^ e.toNat)
    else some ((m + 10 ^ (-e).toNat - 1) / 10 ^ (-e).toNat)

/-! ## Values -/

/-- Values of the embedding. An object `obj` is the list of its own enumerable
properties in enumeration order, read by first match; its prototype is
`Object.prototype`. A value `boxed text value` is an instance of a class that
defines the methods `toString` and `valueOf`, such as an `Int64` of node-int64
(line 10): `text` and `value` are what the two methods return, and its
properties are not modelled. -/
inductive JsVal where
  | undefined
  | null
  | bool (b : Bool)
  | num (n : JsNum)
  | str (s : String)
  | arr (xs : List JsVal)
  | obj (fields : List (String × JsVal))
  | boxed (text : String) (value : JsNum)
  deriving Repr

instance : Inhabited JsVal := ⟨.undefined⟩

/-- Own property `k` of a property list. -/
def fieldGet : List (String × JsVal) → String → Option JsVal
  | [], _ => none
  | (k', v) :: rest, k => if k' = k then some v else fieldGet rest k

/-- Assignment to the existing own property `k`. -/
def fieldSet : List (String × JsVal) → String → JsVal → List (String × JsVal)
  | [], _, _ => []
  | (k', v) :: rest, k, x => if k' = k then (k', x) :: rest else (k', v) :: fieldSet rest k x

/-- Definition of own property `k`: overwritten in place, or appended. -/
def fieldPut : List (String × JsVal) → String → JsVal → List (String × JsVal)
  | [], k, x => [(k, x)]
  | (k', v) :: rest, k, x => if k' = k then (k', x) :: rest else (k', v) :: fieldPut rest k x

/-- The property names defined on `Object.prototype`, which every object
literal inherits. -/
def objectPrototypeKeys : List String :=
  ["constructor", "toString", "toLocaleString", "valueOf", "hasOwnProperty",
    "isPrototypeOf", "propertyIsEnumerable", "__defineGetter__", "__lookupGetter__",
    "__defineSetter__", "__lookupSetter__", "__proto__"]

/-- The operator `k in o` for an object literal `o`: own or inherited property. -/
def hasProperty (o : List (String × JsVal)) (k : String) : Bool :=
  (fieldGet o k).isSome || objectPrototypeKeys.contains k

/-- The conversion `ToBoolean`. -/
def JsVal.toBoolean : JsVal → Bool
  | .undefined => false
  | .null => false
  | .bool b => b
  | .num .nan => false
  | .num (.inf _) => true
  | .num (.fin _ m _) => m ≠ 0
  | .str s => s ≠ ""
  | .arr _ => true
  | .obj _ => true
  | .boxed _ _ => true

/-- Whether `typeof v === "string"`. -/
def JsVal.isString : JsVal → Bool
  | .str _ => true
  | _ => false

mutual
/-- The method call `v.toString()`. It throws on `undefined` and `null`, which
have no properties, and on an object whose own `toString` property shadows the
inherited method with a value that cannot be called. -/
def JsVal.toStringMethod : JsVal → Js String
  | .undefined => .error (.typeError "Cannot call method 'toString' of undefined")
  | .null => .error (.typeError "Cannot call method 'toString' of null")
  | .bool b => .ok (if b then "true" else "false")
  | .num n => .ok n.toString
  | .str s => .ok s
  | .arr xs => JsVal.join xs
  | .obj fs =>
    match fieldGet fs "toString" with
    | some _ => .error (.typeError "Property 'toString' of object is not a function")
    | none => .ok "[object Object]"
  | .boxed text _ => .ok text
/-- The method `Array.prototype.join` with separator `,`: `undefined` and `null`
elements give the empty string. -/
def JsVal.join : List JsVal → Js String
  | [] => .ok ""
  | [x] => JsVal.joinItem x
  | x :: y :: rest =>
    match JsVal.joinItem x with
    | .error e => .error e
    | .ok a =>
      match JsVal.join (y :: rest) with
      | .error e => .error e
      | .ok b => .ok (a ++ "," ++ b)
/-- String form of one element of a joined array. -/
def JsVal.joinItem : JsVal → Js String
  | .undefined => .ok ""
  | .null => .ok ""
  | .bool b => .ok (if b then "true" else "false")
  | .num n => .ok n.toString
  | .str s => .ok s
  | .arr xs => JsVal.join xs
  | .obj fs =>
    match fieldGet fs "toString" with
    | some _ => .error (.typeError "Cannot convert object to primitive value")
    | none => .ok "[object Object]"
  | .boxed text _ => .ok text
end

/-- The conversion `ToNumber`; arrays and objects convert through their string
form, a boxed value through `valueOf`. -/
def JsVal.toNumber : JsVal → Js JsNum
  | .undefined => .ok .nan
  | .null => .ok (.fin false 0 0)
  | .bool b => .ok (if b then .fin false 1 0 else .fin false 0 0)
  | .num n => .ok n
  | .str s => .ok (stringToNumber s)
  | .arr xs => (JsVal.join xs).map stringToNumber
  | .obj fs =>
    match fieldGet fs "toString" with
    | some _ => .error (.typeError "Cannot convert object to primitive value")
    | none => .ok (stringToNumber "[object Object]")
  | .boxed _ value => .ok value

/-- A property key: a name, or an array index `i` (the name `ToString(i)`). -/
inductive PropKey where
  | name (k : String)
  | index (i : Nat)
  deriving DecidableEq, Repr

/-- The property name a key stands for. -/
def PropKey.toString : PropKey → String
  | .name k => k
  | .index i => (JsNum.ofNat i).toString

/-- The property read `v[key]` for the own properties of `v`. -/
def JsVal.getProp : JsVal → PropKey → JsVal
  | .obj fs, key => (fieldGet fs key.toString).getD .undefined
  | .arr xs, .index i => xs.getD i .undefined
  | .str s, .index i =>
    match s.toList[i]? with
    | some c => .str (String.singleton c)
    | none => .undefined
  | _, _ => .undefined

/-- The state of `v` after the assignment `v[key] = x` to an existing own
property; assignment to a property of a primitive value has no effect. -/
def JsVal.setProp : JsVal → PropKey → JsVal → JsVal
  | .obj fs, key, x => .obj (fieldSet fs key.toString x)
  | .arr xs, .index i, x => .arr (xs.set i x)
  | v, _, _ => v

/-- The property `v.length` of a value that is not `undefined` or `null`. -/
def JsVal.length : JsVal → JsVal
  | .str s => .num (JsNum.ofNat s.length)
  | .arr xs => .num (JsNum.ofNat xs.length)
  | .obj fs => (fieldGet fs "length").getD .undefined
  | _ => .undefined

/-- The keys visited by `for (var j in v)`: each own enumerable property once;
nothing for `undefined`, `null`, booleans and numbers. -/
def JsVal.forInKeys : JsVal → List PropKey
  | .obj fs => (fs.map Prod.fst).dedup.map PropKey.name
  | .arr xs => (List.range xs.length).map PropKey.index
  | .str s => (List.range s.length).map PropKey.index
  | _ => []

/-! ## `JSON.parse` -/

/-- JSON white space: tab, line feed, carriage return, space. -/
def jsonSkipWs : List Char → List Char
  | c :: rest => if c = '\t' ∨ c = '\n' ∨ c = '\r' ∨ c = ' ' then jsonSkipWs rest else c :: rest
  | [] => []

/-- The code unit written by four hexadecimal digits. -/
def hex4 (a b c d : Char) : Option Nat :=
  match digitValue a, digitValue b, digitValue c, digitValue d with
  | some x, some y, some z, some w =>
    if x < 16 ∧ y < 16 ∧ z < 16 ∧ w < 16 then some (((x * 16 + y) * 16 + z) * 16 + w) else none
  | _, _, _, _ => none

/-- The character of a single-character escape. -/
def jsonEscape (c : Char) : Option Char :=
  if c = '"' then some '"'
  else if c = '\\' then some '\\'
  else if c = '/' then some '/'
  else if c = 'b' then some (Char.ofNat 8)
  else if c = 'f' then some (Char.ofNat 12)
  else if c = 'n' then some '\n'
  else if c = 'r' then some '\r'
  else if c = 't' then some '\t'
  else none

/-- Characters of a sequence of UTF-16 code units: a surrogate pair gives the
character of the pair; an unpaired surrogate, which is no Unicode scalar value,
is read as U+FFFD. -/
def decodeUnits : List Nat → List Char
  | [] => []
  | [u] => [if 0xD800 ≤ u ∧ u < 0xE000 then Char.ofNat 0xFFFD else Char.ofNat u]
  | hi :: lo :: rest =>
    if 0xD800 ≤ hi ∧ hi < 0xDC00 ∧ 0xDC00 ≤ lo ∧ lo < 0xE000 then
      Char.ofNat (0x10000 + (hi - 0xD800) * 0x400 + (lo - 0xDC00)) :: decodeUnits rest
    else if 0xD800 ≤ hi ∧ hi < 0xE000 then Char.ofNat 0xFFFD :: decodeUnits (lo :: rest)
    else Char.ofNat hi :: decodeUnits (lo :: rest)

/-- Reads a JSON string after its opening quote: the code units read so far
(reversed) and the text; gives the string and the text after the closing quote. -/
def jsonString : List Nat → List Char → Option (String × List Char)
  | _, [] => none
  | acc, '"' :: rest => some (String.mk (decodeUnits acc.reverse), rest)
  | acc, '\\' :: 'u' :: a :: b :: c :: d :: rest =>
    match hex4 a b c d with
    | some u => jsonString (u :: acc) rest
    | none => none
  | acc, '\\' :: e :: rest =>
    match jsonEscape e with
    | some c => jsonString (c.toNat :: acc) rest
    | none => none
  | acc, c :: rest =>
    if c.toNat < 0x20 ∨ c = '\\' then none else jsonString (c.toNat :: acc) rest

/-- Reads a JSON number: `-? (0 | [1-9][0-9]*) (. [0-9]+)? ([eE] [+-]? [0-9]+)?`. -/
def jsonNumber (cs : List Char) : Option (JsNum × List Char) :=
  let neg := match cs with
    | '-' :: _ => true
    | _ => false
  let r0 := match cs with
    | '-' :: r => r
    | r => r
  let ip := match r0 with
    | '0' :: _ => ['0']
    | r => r.takeWhile Char.isDigit
  let r1 := r0.drop ip.length
  if ip = [] then none else
  let hasFrac := match r1 with
    | '.' :: _ => true
    | _ => false
  let fp := match r1 with
    | '.' :: r => r.takeWhile Char.isDigit
    | _ => []
  if hasFrac = true ∧ fp = [] then none else
  let r2 := if hasFrac then r1.drop (fp.length + 1) else r1
  let hasExp := match r2 with
    | 'e' :: _ => true
    | 'E' :: _ => true
    | _ => false
  let s := takeSign (r2.drop 1)
  let ep := s.2.takeWhile Char.isDigit
  if hasExp = true ∧ ep = [] then none else
  let e : Int := if hasExp then (if s.1 then -(digitsToNat ep : Int) else digitsToNat ep) else 0
  let r3 := if hasExp then s.2.drop ep.length else r2
  some (JsNum.ofDecimal neg (digitsToNat (ip ++ fp)) (e - fp.length), r3)

mutual
/-- Reads one JSON value, skipping the white space before it. -/
def jsonValue : Nat → List Char → Option (JsVal × List Char)
  | 0, _ => none
  | fuel + 1, cs =>
    match jsonSkipWs cs with
    | 'n' :: 'u' :: 'l' :: 'l' :: rest => some (.null, rest)
    | 't' :: 'r' :: 'u' :: 'e' :: rest => some (.bool true, rest)
    | 'f' :: 'a' :: 'l' :: 's' :: 'e' :: rest => some (.bool false, rest)
    | '"' :: rest =>
      match jsonString [] rest with
      | some (s, rest2) => some (.str s, rest2)
      | none => none
    | '[' :: rest =>
      match jsonSkipWs rest with
      | ']' :: rest2 => some (.arr [], rest2)
      | rest2 => jsonElements fuel rest2 []
    | '{' :: rest =>
      match jsonSkipWs rest with
      | '}' :: rest2 => some (.obj [], rest2)
      | rest2 => jsonMembers fuel rest2 []
    | rest =>
      match jsonNumber rest with
      | some (n, rest2) => some (.num n, rest2)
      | none => none
/-- Reads the elements of an array up to its closing bracket. -/
def jsonElements : Nat → List Char → List JsVal → Option (JsVal × List Char)
  | 0, _, _ => none
  | fuel + 1, cs, acc =>
    match jsonValue fuel cs with
    | none => none
    | some (v, rest) =>
      match jsonSkipWs rest with
      | ',' :: rest2 => jsonElements fuel rest2 (v :: acc)
      | ']' :: rest2 => some (.arr (v :: acc).reverse, rest2)
      | _ => none
/-- Reads the members of an object up to its closing brace; a repeated name
overwrites the earlier value. -/
def jsonMembers : Nat → List Char → List (String × JsVal) → Option (JsVal × List Char)
  | 0, _, _ => none
  | fuel + 1, cs, acc =>
    match jsonSkipWs cs with
    | '"' :: rest =>
      match jsonString [] rest with
      | none => none
      | some (k, rest2) =>
        match jsonSkipWs rest2 with
        | ':' :: rest3 =>
          match jsonValue fuel rest3 with
          | none => none
          | some (v, rest4) =>
            match jsonSkipWs rest4 with
            | ',' :: rest5 => jsonMembers fuel rest5 (fieldPut acc k v)
            | '}' :: rest5 => some (.obj (fieldPut acc k v), rest5)
            | _ => none
        | _ => none
    | _ => none
end

/-- The function `JSON.parse(text)` on a string: the value the text denotes, or a
`SyntaxError` when the text is not a JSON text. Every call of the reader
consumes a character within two steps, so `2 * length + 2` steps suffice. -/
def JSON.parse (text : String) : Js JsVal :=
  match jsonValue (2 * text.length + 2) text.toList with
  | some (v, rest) =>
    match jsonSkipWs rest with
    | [] => .ok v
    | _ => .error (.syntaxError "Unexpected token")
  | none => .error (.syntaxError "Unexpected token")

/-! ## The bridge: `socketResponse` and `configureIoHandlers` -/

/-- The property read `v.name`, for a name that no built-in prototype defines;
it throws when `v` is `undefined` or `null`. -/
def JsVal.member : JsVal → String → Js JsVal
  | .undefined, name => .error (.typeError ("Cannot read property '" ++ name ++ "' of undefined"))
  | .null, name => .error (.typeError ("Cannot read property '" ++ name ++ "' of null"))
  | .obj fs, name => .ok ((fieldGet fs name).getD .undefined)
  | _, _ => .ok .undefined

/-- An event sent to the browser by `socket.emit(event, args...)`. -/
structure Emit where
  event : String
  args : List JsVal
  deriving Repr

/-- The five listener closures that `configureIoHandlers` registers, each with
the completion callback it passes to the backend. -/
inductive Listener where
  | metadata
  | far
  | gateway
  | monitor
  | manager
  deriving DecidableEq, Repr

/-- The event a listener is registered for, which is also the name of the
backend capability it calls. -/
def Listener.channel : Listener → String
  | .metadata => "metadata"
  | .far => "far"
  | .gateway => "gateway"
  | .monitor => "monitor"
  | .manager => "manager"

/-- A socket.io socket as the bridge sees it: what was emitted on it, in order,
and the listeners registered on it. -/
structure Socket where
  emitted : List Emit
  listeners : List (String × Listener)
  deriving Repr

/-- A call `self.Api.<capability>(context, method, params, callback)`; the
callback is the closure created by `listener` around `request`. -/
structure ApiCall where
  capability : String
  context : JsVal
  method : JsVal
  params : JsVal
  listener : Listener
  request : JsVal
  deriving Repr

/-- The state of a `WebAppServer`: every socket socket.io has handed to it, the
tracked `socket` (`null` before the first connection), `Api.credential`, and the
backend calls issued so far. -/
structure WebAppServer where
  sockets : List Socket
  socket : Option Nat
  credential : JsVal
  apiCalls : List ApiCall
  deriving Repr

/-- Applies `f` to the element at position `i`. -/
def modifyAt {α : Type} (f : α → α) : List α → Nat → List α
  | [], _ => []
  | x :: xs, 0 => f x :: xs
  | x :: xs, i + 1 => x :: modifyAt f xs i

/-- The call `this.socket.emit(event, args...)` on the tracked socket. -/
def WebAppServer.emit (self : WebAppServer) (e : Emit) : Js WebAppServer :=
  match self.socket with
  | none => .error (.typeError "Cannot call method 'emit' of null")
  | some sid =>
    .ok { self with sockets := modifyAt (fun s => { s with emitted := s.emitted ++ [e] }) self.sockets sid }

/-- The call `self.socket.on(event, listener)` on the tracked socket. -/
def WebAppServer.on (self : WebAppServer) (event : String) (l : Listener) : Js WebAppServer :=
  match self.socket with
  | none => .error (.typeError "Cannot call method 'on' of null")
  | some sid =>
    .ok { self with
      sockets := modifyAt (fun s => { s with listeners := s.listeners ++ [(event, l)] }) self.sockets sid }

/-- The value of `typeof response === "string" ? JSON.parse(response) : response`. -/
def responseParams : JsVal → Js JsVal
  | .str s => JSON.parse s
  | v => .ok v

/-- `WebAppServer.prototype.socketResponse` (lines 140-146). -/
def socketResponse (self : WebAppServer) (request error response : JsVal) : Js WebAppServer :=
  match self.socket with
  | none => .error (.typeError "Cannot call method 'emit' of null")
  | some _ => do
    let method ← request.member "method"
    let params ← responseParams response
    let id ← request.member "id"
    self.emit ⟨"exec", [error, .obj [("method", method), ("params", params), ("id", id)]]⟩

/-- The object literal `int64values` (lines 190-195). -/
def int64values : List (String × JsVal) :=
  [("lastStarted", .num (.fin false 1 0)), ("lastStopped", .num (.fin false 1 0)),
    ("startTime", .num (.fin false 1 0)), ("endTime", .num (.fin false 1 0))]

/-- The statement `if (j in int64values) { response[i][j] =
parseInt(response[i][j].toString(), 10); }` (lines 198-200) on `r = response[i]`. -/
def convertProperty (r : JsVal) (j : PropKey) : Js JsVal :=
  if hasProperty int64values j.toString then
    match (r.getProp j).toStringMethod with
    | .ok s => .ok (r.setProp j (.num (parseInt s 10)))
    | .error e => .error e
  else .ok r

/-- The inner loop `for (var j in response[i])` (lines 197-201) on `response[i]`. -/
def normaliseRecord (record : JsVal) : Js JsVal :=
  record.forInKeys.foldlM convertProperty record

/-- The body of the outer loop for index `i`: the state of `response` after the
inner loop has run on `response[i]`. -/
def normaliseAt (response : JsVal) (i : Nat) : Js JsVal :=
  match normaliseRecord (response.getProp (.index i)) with
  | .ok record => .ok (response.setProp (.index i) record)
  | .error e => .error e

/-- The body of the manager completion before it calls `socketResponse`
(lines 189-203); the result is the state of `response` afterwards. -/
def normaliseInt64 (response : JsVal) : Js JsVal :=
  if response.toBoolean && response.length.toBoolean then
    match response.length.toNumber with
    | .error e => .error e
    | .ok len =>
      match loopCount len with
      | none => .error .nonTermination
      | some n => (List.range n).foldlM normaliseAt response
  else .ok response

/-- The completion callbacks (lines 163-165, 169-171, 175-177, 181-183, 187-205),
named by the listener that creates them. -/
def runCallback (self : WebAppServer) : Listener → JsVal → JsVal → JsVal → Js WebAppServer
  | .metadata, request, error, response => socketResponse self request error response
  | .far, request, error, response => socketResponse self request error response
  | .gateway, request, error, response => socketResponse self request error response
  | .monitor, request, error, response => socketResponse self request error response
  | .manager, request, error, response =>
    match normaliseInt64 response with
    | .ok normalised => socketResponse self request error normalised
    | .error e => .error e

/-- Records a call of a backend capability. -/
def WebAppServer.callApi (self : WebAppServer) (c : ApiCall) : WebAppServer :=
  { self with apiCalls := self.apiCalls ++ [c] }

/-- The listeners (lines 162-206) on a received `request`. -/
def runListener (version : JsVal) (self : WebAppServer) : Listener → JsVal → Js WebAppServer
  | .metadata, request => do
    let method ← request.member "method"
    let params ← request.member "params"
    pure (self.callApi ⟨"metadata", version, method, params, .metadata, request⟩)
  | .far, request => do
    let method ← request.member "method"
    let params ← request.member "params"
    pure (self.callApi ⟨"far", version, method, params, .far, request⟩)
  | .gateway, request => do
    let method ← request.member "method"
    let params ← request.member "params"
    pure (self.callApi ⟨"gateway", .str "apikey", method, params, .gateway, request⟩)
  | .monitor, request => do
    let method ← request.member "method"
    let params ← request.member "params"
    pure (self.callApi ⟨"monitor", version, method, params, .monitor, request⟩)
  | .manager, request => do
    let method ← request.member "method"
    let params ← request.member "params"
    pure (self.callApi ⟨"manager", version, method, params, .manager, request⟩)

/-- The `connection` handler (lines 156-207); socket.io passes a socket it has
just created. -/
def onConnection (name version : JsVal) (self : WebAppServer) : Js WebAppServer := do
  let newSocket := self.sockets.length
  let self : WebAppServer := { self with sockets := self.sockets ++ [⟨[], []⟩] }
  let self : WebAppServer := { self with socket := some newSocket }
  let self ← self.emit
    ⟨"env", [.obj [("name", name), ("version", version), ("credential", self.credential)]]⟩
  let self ← self.on "metadata" .metadata
  let self ← self.on "far" .far
  let self ← self.on "gateway" .gateway
  let self ← self.on "monitor" .monitor
  self.on "manager" .manager

/-- What happens to the bridge: a client connects, a client sends `event` with
payload `request` on a socket, or the backend invokes the callback of the call
numbered `call`. -/
inductive Event where
  | connection
  | message (socket : Nat) (event : String) (request : JsVal)
  | completion (call : Nat) (error response : JsVal)
  deriving Repr

/-- One event, as wired by `configureIoHandlers(io, name, version)`. -/
def step (name version : JsVal) (self : WebAppServer) : Event → Js WebAppServer
  | .connection => onConnection name version self
  | .message sid event request =>
    match self.sockets[sid]? with
    | none => .ok self
    | some s =>
      (s.listeners.filter (fun l => l.1 = event)).foldlM
        (fun st l => runListener version st l.2 request) self
  | .completion call error response =>
    match self.apiCalls[call]? with
    | none => .ok self
    | some c => runCallback self c.listener c.request error response

/-- A sequence of events; an uncaught exception ends the run. -/
def run (name version : JsVal) (self : WebAppServer) (events : List Event) : Js WebAppServer :=
  events.foldlM (step name version) self

/-- The server before any connection, with `Api.credential` as given. -/
def WebAppServer.init (credential : JsVal) : WebAppServer := ⟨[], none, credential, []⟩

/-! ## The routes `GET /destinations` and `POST /credential` -/

/-- A call on the route response `res`. -/
inductive ResOp where
  | write (body : String)
  | finish
  deriving DecidableEq, Repr

/-- The bodies written to a route response, in order. -/
def bodies : List ResOp → List String
  | [] => []
  | .write b :: rest => b :: bodies rest
  | .finish :: rest => bodies rest

/-- The request made by `https.request(options, callback)` (lines 282-320):
its options, whether `end()` and `abort()` were called on it, the accumulator
`data` of every run of the response callback, and the number of `timeout`
listeners put on its socket. -/
structure Outbound where
  host : JsVal
  path : String
  port : JsVal
  ended : Bool
  aborted : Bool
  data : List String
  timeoutListeners : Nat
  deriving Repr

/-- One invocation of the `GET /destinations` handler: whether the callback of
`fs.readFile` is still awaited, the outbound request if one was made, the calls
made on `res`, and the number of `logger.trace` calls. -/
structure Destinations where
  reading : Bool
  request : Option Outbound
  res : List ResOp
  traces : Nat
  deriving Repr

/-- The events delivered to one invocation: the callback of `fs.readFile`,
`error` on `res`, the response callback of the request, `data`, `end` and
`error` on the upstream response, `error` and `socket` on the request, and
`timeout` on its socket. -/
inductive DestEvent where
  | readFile (error : JsVal) (result : String)
  | resError
  | response
  | data (chunk : String)
  | responseEnd
  | responseError
  | requestError
  | socket
  | timeout
  deriving Repr

/-- The handler called by the router (line 267): it only starts the read. -/
def getDestinations : Destinations := ⟨true, none, [], 0⟩

/-- The listeners of the `GET /destinations` handler (lines 269-322);
`host` and `port` are `config['accounts-host']` and `config['accounts-port']`. -/
def destStep (host port : JsVal) (st : Destinations) : DestEvent → Destinations
  | .readFile error result =>
    if st.reading then
      if error.toBoolean then
        { st with reading := false, res := st.res ++ [.write "false", .finish] }
      else
        { st with
          reading := false,
          request := some ⟨host, "/api/vpc/list/" ++ result, port, true, false, [], 0⟩ }
    else st
  | .resError => if st.reading then st else { st with traces := st.traces + 1 }
  | .response =>
    match st.request with
    | none => st
    | some rq => { st with request := some { rq with data := rq.data ++ [""] } }
  | .data chunk =>
    match st.request with
    | none => st
    | some rq => { st with request := some { rq with data := rq.data.map (fun d => d ++ chunk) } }
  | .responseEnd =>
    match st.request with
    | none => st
    | some rq => { st with res := st.res ++ (rq.data.map (fun d => [.write d, .finish])).flatten }
  | .responseError =>
    match st.request with
    | none => st
    | some rq =>
      { st with res := st.res ++ (rq.data.map (fun _ => [.write "network", .finish])).flatten }
  | .requestError =>
    match st.request with
    | none => st
    | some _ => { st with res := st.res ++ [.write "network", .finish] }
  | .socket =>
    match st.request with
    | none => st
    | some rq => { st with request := some { rq with timeoutListeners := rq.timeoutListeners + 1 } }
  | .timeout =>
    match st.request with
    | none => st
    | some rq =>
      if rq.timeoutListeners = 0 then st else
      { st with
        request := some { rq with aborted := true },
        res := st.res ++
          (List.replicate rq.timeoutListeners [ResOp.write "network", ResOp.finish]).flatten }

/-- A sequence of events delivered to one invocation. -/
def destRun (host port : JsVal) (st : Destinations) (events : List DestEvent) : Destinations :=
  events.foldl (destStep host port) st

/-- The callback of `fs.writeFile` in the `POST /credential` handler
(lines 334-348), for `apiKey = req.body.apiKey`: the server afterwards and the
calls made on `res`. -/
def postCredential (self : WebAppServer) (apiKey error : JsVal) : WebAppServer × List ResOp :=
  if error.toBoolean then
    (self, [.write "Error: Could not write credentials file.", .finish])
  else
    ({ self with credential := apiKey }, [.write "true", .finish])

/-! ## Notions used to state the properties -/

/-- The `env` announcement of a connection. -/
def envEvent (name version credential : JsVal) : Emit :=
  ⟨"env", [.obj [("name", name), ("version", version), ("credential", credential)]]⟩

/-- The response envelope `exec(error, {method, params, id})` for a request. -/
def execEvent (request : List (String × JsVal)) (error params : JsVal) : Emit :=
  ⟨"exec", [error, .obj [("method", (fieldGet request "method").getD .undefined),
    ("params", params), ("id", (fieldGet request "id").getD .undefined)]]⟩

/-- The five channel bindings, in registration order. -/
def channelBindings : List (String × Listener) :=
  [("metadata", .metadata), ("far", .far), ("gateway", .gateway), ("monitor", .monitor),
    ("manager", .manager)]

/-- The server after `e` has been emitted on the socket numbered `sid`. -/
def WebAppServer.emitted (self : WebAppServer) (sid : Nat) (e : Emit) : WebAppServer :=
  { self with sockets := modifyAt (fun s => { s with emitted := s.emitted ++ [e] }) self.sockets sid }

/-- The value `parseInt(v.toString(), 10)` of a value that has a string form. -/
def parsedField (v : JsVal) : JsVal :=
  match v.toStringMethod with
  | .ok s => .num (parseInt s 10)
  | .error _ => v

/-- The Int64 field set of the specification. -/
def int64FieldSet : List String := ["lastStarted", "lastStopped", "startTime", "endTime"]

/-- Following the specification's words, a valid base-10 integer: an optional
sign followed by decimal digits and nothing else. -/
def isBase10Integer (s : String) : Bool :=
  (takeSign s.toList).2 ≠ [] && (takeSign s.toList).2.all Char.isDigit

/-- Whether a string, after leading white space and an optional sign, starts
with a decimal digit. -/
def startsWithInteger (s : String) : Bool :=
  match (takeSign (s.toList.dropWhile isStrWhiteSpaceChar)).2 with
  | c :: _ => c.isDigit
  | [] => false

/-- The decimal digits `parseInt` reads from a string: those that follow the
leading white space and an optional sign. -/
def leadingDigits (s : String) : List Char :=
  (takeSign (s.toList.dropWhile isStrWhiteSpaceChar)).2.takeWhile Char.isDigit

/-- Whether the digits `parseInt` reads from a string follow a minus sign. -/
def hasMinusSign (s : String) : Bool :=
  (takeSign (s.toList.dropWhile isStrWhiteSpaceChar)).1

/-- Number of runs of the response callback of the outbound request so far. -/
def dataCount (st : Destinations) : Nat :=
  match st.request with
  | none => 0
  | some rq => rq.data.length

/-- Number of `timeout` listeners on the socket of the outbound request. -/
def timeoutCount (st : Destinations) : Nat :=
  match st.request with
  | none => 0
  | some rq => rq.timeoutListeners

/-- The body received from upstream so far: the accumulator `data` of the
response callback, once that callback has run. -/
def upstreamBody (st : Destinations) : Option String :=
  match st.request with
  | none => none
  | some rq => rq.data.head?

/-- Following the specification's words, the body an event makes the handler
write: `false` for a failed credential read, the upstream body for `end`,
`network` for an error on the response or on the request and for the socket
timeout, each only while the listener of the event is registered; nothing for
any other event. -/
def bodyWritten (st : Destinations) : DestEvent → Option String
  | .readFile error _ => if st.reading ∧ error.toBoolean then some "false" else none
  | .responseEnd => upstreamBody st
  | .responseError => if dataCount st = 0 then none else some "network"
  | .requestError => if st.request.isSome then some "network" else none
  | .timeout => if timeoutCount st = 0 then none else some "network"
  | _ => none

/-- The chunk an event delivers, if it is `data` on the upstream response. -/
def DestEvent.chunk : DestEvent → Option String
  | .data c => some c
  | _ => none

/-- The events that make a listener of `GET /destinations` write a body. -/
def DestEvent.terminal : DestEvent → Bool
  | .readFile error _ => error.toBoolean
  | .responseEnd => true
  | .responseError => true
  | .requestError => true
  | .timeout => true
  | _ => false

/-- Whether an event is the response callback of the outbound request. -/
def DestEvent.isResponse : DestEvent → Bool
  | .response => true
  | _ => false

/-- Whether an event is `socket` on the outbound request. -/
def DestEvent.isSocket : DestEvent → Bool
  | .socket => true
  | _ => false

/-! ## Sample inputs -/

/-- A server with one connected socket. -/
def sampleServer : WebAppServer :=
  ⟨[⟨[envEvent (.str "dev") (.str "1.0") .null], channelBindings⟩], some 0, .null, []⟩

/-- A request of the browser client. -/
def sampleRequest : List (String × JsVal) :=
  [("method", .str "getFlows"), ("params", .arr []), ("id", .num (.fin false 7 0))]

/-- A manager result: two records with Int64-set fields as strings and numbers. -/
def sampleRecords : List (List (String × JsVal)) :=
  [[("name", .str "flow1"), ("startTime", .str "1386000000000"), ("endTime", .str "abc")],
    [("lastStarted", .num (.fin false 42 0)), ("runs", .null)]]

/-- A manager result with 64-bit values: as an `Int64` instance, as a string of
digits beyond `2 ^ 53`, and as a string that starts with no digit. -/
def sampleInt64Records : List (List (String × JsVal)) :=
  [[("name", .str "flow1"), ("startTime", .boxed "1386000000123" (.fin false 1386000000123 0)),
      ("endTime", .str "abc")],
    [("lastStarted", .str "9223372036854775807"), ("lastStopped", .num (.fin false 42 0)),
      ("runs", .null)]]

/-- The events of an upstream exchange up to its second chunk. -/
def sampleExchange : List DestEvent :=
  [.readFile .null "key", .socket, .response, .data "[1", .data ",2]"]

/-! ## Lemmas on lists and sockets -/

theorem modifyAt_append_length {α : Type} (f : α → α) (xs : List α) (x : α) :
    modifyAt f (xs ++ [x]) xs.length = xs ++ [f x] := by
  induction xs with
  | nil => rfl
  | cons y ys ih => simp [modifyAt, ih]

theorem modifyAt_get?_self {α : Type} (f : α → α) (xs : List α) (i : Nat) :
    (modifyAt f xs i)[i]? = xs[i]?.map f := by
  induction xs generalizing i with
  | nil => simp [modifyAt]
  | cons y ys ih => cases i <;> simp [modifyAt, ih]

theorem modifyAt_get?_other {α : Type} (f : α → α) (xs : List α) (i j : Nat) (h : j ≠ i) :
    (modifyAt f xs i)[j]? = xs[j]? := by
  induction xs generalizing i j with
  | nil => simp [modifyAt]
  | cons y ys ih =>
    cases i with
    | zero => cases j with
      | zero => exact absurd rfl h
      | succ j => simp [modifyAt]
    | succ i => cases j with
      | zero => simp [modifyAt]
      | succ j => simp [modifyAt]; exact ih i j (by omega)

theorem socketResponse_ok (self : WebAppServer) (sid : Nat) (request : List (String × JsVal))
    (error response params : JsVal) (hs : self.socket = some sid)
    (hp : responseParams response = .ok params) :
    socketResponse self (.obj request) error response =
      .ok (self.emitted sid (execEvent request error params)) := by
  simp [socketResponse, hs, hp, JsVal.member, bind, Except.bind, WebAppServer.emit,
    WebAppServer.emitted, execEvent]

theorem runCallback_eq (self : WebAppServer) (c : Listener) (request error response : JsVal) :
    runCallback self c request error response =
      (if c = .manager then normaliseInt64 response else .ok response).bind
        (fun r => socketResponse self request error r) := by
  cases c <;> simp [runCallback, Except.bind]
  cases normaliseInt64 response <;> rfl

theorem connection_step (name version : JsVal) (self : WebAppServer) :
    step name version self .connection = .ok
      { self with
        sockets := self.sockets ++ [⟨[envEvent name version self.credential], channelBindings⟩],
        socket := some self.sockets.length } := by
  simp [step, onConnection, WebAppServer.emit, WebAppServer.on, bind, Except.bind,
    modifyAt_append_length, envEvent, channelBindings]

theorem runListener_eq (version : JsVal) (self : WebAppServer) (c : Listener)
    (request : List (String × JsVal)) :
    runListener version self c (.obj request) = .ok (self.callApi
      ⟨c.channel, if c = .gateway then .str "apikey" else version,
        (fieldGet request "method").getD .undefined,
        (fieldGet request "params").getD .undefined, c, .obj request⟩) := by
  cases c <;> simp [runListener, JsVal.member, bind, Except.bind, Listener.channel, pure, Except.pure]

theorem bindings_filter (c : Listener) :
    channelBindings.filter (fun l => l.1 = c.channel) = [(c.channel, c)] := by
  cases c <;> rfl

theorem message_step (name version : JsVal) (self : WebAppServer) (sid : Nat) (s : Socket)
    (c : Listener) (request : List (String × JsVal))
    (hs : self.sockets[sid]? = some s) (hl : s.listeners = channelBindings) :
    step name version self (.message sid c.channel (.obj request)) = .ok (self.callApi
      ⟨c.channel, if c = .gateway then .str "apikey" else version,
        (fieldGet request "method").getD .undefined,
        (fieldGet request "params").getD .undefined, c, .obj request⟩) := by
  simp only [step, hs, hl, bindings_filter]
  simp [List.foldlM, runListener_eq, bind, Except.bind, pure, Except.pure]

/-! ## Lemmas on the normaliser -/

theorem fieldGet_fieldSet (fs : List (String × JsVal)) (k k' : String) (x : JsVal) :
    fieldGet (fieldSet fs k x) k' =
      if k' = k then (fieldGet fs k).map (fun _ => x) else fieldGet fs k' := by
  induction fs with
  | nil => simp [fieldSet, fieldGet]
  | cons p rest ih =>
    obtain ⟨a, v⟩ := p
    by_cases h : a = k
    · subst h
      by_cases h2 : k' = a
      · subst h2; simp [fieldSet, fieldGet]
      · have h3 : ¬ a = k' := fun h => h2 h.symm
        simp [fieldSet, fieldGet, h2, h3]
    · by_cases h2 : k' = k
      · subst h2; simp [fieldSet, fieldGet, h, ih]
      · by_cases h3 : a = k'
        · simp [fieldSet, fieldGet, h, h2, h3]
        · simp [fieldSet, fieldGet, h, h2, h3, ih]

theorem fieldGet_isSome_iff (fs : List (String × JsVal)) (k : String) :
    (fieldGet fs k).isSome = true ↔ k ∈ fs.map Prod.fst := by
  induction fs with
  | nil => simp [fieldGet]
  | cons p rest ih =>
    obtain ⟨a, v⟩ := p
    by_cases h : a = k
    · simp [fieldGet, h]
    · have h' : ¬ k = a := fun e => h e.symm
      simp [fieldGet, h, h', ih]

theorem convert_fold (ks : List String) (hnd : ks.Nodup) :
    ∀ fs : List (String × JsVal),
      (∀ k ∈ ks, hasProperty int64values k = true →
        ∃ v s, fieldGet fs k = some v ∧ v.toStringMethod = .ok s) →
      ∃ fs', (ks.map PropKey.name).foldlM convertProperty (.obj fs) = .ok (.obj fs') ∧
        ∀ k, fieldGet fs' k =
          if k ∈ ks ∧ hasProperty int64values k = true then (fieldGet fs k).map parsedField
          else fieldGet fs k := by
  induction ks with
  | nil => intro fs _; exact ⟨fs, rfl, by simp⟩
  | cons k rest ih =>
    intro fs H
    have hk : k ∉ rest := (List.nodup_cons.mp hnd).1
    have hrest := (List.nodup_cons.mp hnd).2
    by_cases hp : hasProperty int64values k = true
    · obtain ⟨v, s, hv, hs⟩ := H k (List.mem_cons_self _ _) hp
      have hstep : convertProperty (.obj fs) (.name k) =
          .ok (.obj (fieldSet fs k (.num (parseInt s 10)))) := by
        simp [convertProperty, PropKey.toString, hp, JsVal.getProp, hv, hs, JsVal.setProp]
      obtain ⟨fs', hfold, hget⟩ := ih hrest (fieldSet fs k (.num (parseInt s 10))) (by
        intro k' hk' hp'
        obtain ⟨v', s', hv', hs'⟩ := H k' (List.mem_cons_of_mem _ hk') hp'
        have hne : k' ≠ k := fun e => hk (e ▸ hk')
        exact ⟨v', s', by rw [fieldGet_fieldSet, if_neg hne]; exact hv', hs'⟩)
      refine ⟨fs', ?_, ?_⟩
      · simp only [List.map_cons, List.foldlM_cons, hstep]
        exact hfold
      · intro k''
        rw [hget k'', fieldGet_fieldSet]
        by_cases e : k'' = k
        · subst e
          simp [hk, hp, hv, parsedField, hs]
        · simp [e]
    · have hstep : convertProperty (.obj fs) (.name k) = .ok (.obj fs) := by
        simp [convertProperty, PropKey.toString, hp]
      obtain ⟨fs', hfold, hget⟩ := ih hrest fs (by
        intro k' hk' hp'
        exact H k' (List.mem_cons_of_mem _ hk') hp')
      refine ⟨fs', ?_, ?_⟩
      · simp only [List.map_cons, List.foldlM_cons, hstep]
        exact hfold
      · intro k''
        rw [hget k'']
        by_cases e : k'' = k
        · subst e
          simp [hk, hp]
        · simp [e]

theorem normaliseRecord_obj (fs : List (String × JsVal))
    (H : ∀ k v, fieldGet fs k = some v → hasProperty int64values k = true →
      ∃ s, v.toStringMethod = .ok s) :
    ∃ fs', normaliseRecord (.obj fs) = .ok (.obj fs') ∧
      ∀ k, fieldGet fs' k =
        (fieldGet fs k).map (fun v => if hasProperty int64values k = true then parsedField v else v) := by
  obtain ⟨fs', hfold, hget⟩ := convert_fold (fs.map Prod.fst).dedup (List.nodup_dedup _) fs (by
    intro k hk hp
    have hmem : k ∈ fs.map Prod.fst := List.mem_dedup.mp hk
    have hsome := (fieldGet_isSome_iff fs k).mpr hmem
    obtain ⟨v, hv⟩ := Option.isSome_iff_exists.mp hsome
    obtain ⟨s, hs⟩ := H k v hv hp
    exact ⟨v, s, hv, hs⟩)
  refine ⟨fs', ?_, ?_⟩
  · simpa [normaliseRecord, JsVal.forInKeys] using hfold
  · intro k
    rw [hget k]
    by_cases hp : hasProperty int64values k = true
    · by_cases hmem : k ∈ fs.map Prod.fst
      · have : k ∈ (fs.map Prod.fst).dedup := List.mem_dedup.mpr hmem
        simp [this, hp]
      · have hnone : fieldGet fs k = none := by
          cases h : fieldGet fs k with
          | none => rfl
          | some v =>
            exact absurd ((fieldGet_isSome_iff fs k).mp (by simp [h])) hmem
        simp [hnone]
    · simp [hp]

theorem stripZeros_spec (fuel : Nat) : ∀ (m : Nat) (e : Int), m ≠ 0 → 0 ≤ e →
    (stripZeros fuel m e).1 ≠ 0 ∧ 0 ≤ (stripZeros fuel m e).2 ∧
      (stripZeros fuel m e).1 * 10 ^ (stripZeros fuel m e).2.toNat = m * 10 ^ e.toNat := by
  induction fuel with
  | zero => intro m e hm he; exact ⟨hm, he, rfl⟩
  | succ n ih =>
    intro m e hm he
    unfold stripZeros
    by_cases h : m ≠ 0 ∧ m % 10 = 0
    · rw [if_pos h]
      have hdiv : m / 10 ≠ 0 := by omega
      obtain ⟨h1, h2, h3⟩ := ih (m / 10) (e + 1) hdiv (by omega)
      refine ⟨h1, h2, ?_⟩
      rw [h3]
      have : (e + 1).toNat = e.toNat + 1 := by omega
      rw [this, pow_succ]
      have hm10 : m / 10 * 10 = m := by omega
      have hr : m / 10 * (10 ^ e.toNat * 10) = (m / 10 * 10) * 10 ^ e.toNat := by ring
      rw [hr, hm10]
    · rw [if_neg h]
      exact ⟨hm, he, rfl⟩

theorem toBoolean_ofNat (n : Nat) : (JsVal.num (JsNum.ofNat n)).toBoolean = decide (n ≠ 0) := by
  by_cases h : n = 0
  · subst h; rfl
  · have := (stripZeros_spec n n 0 h (le_refl 0)).1
    simp [JsNum.ofNat, JsNum.mk, h, JsVal.toBoolean, this]

theorem loopCount_ofNat (n : Nat) : loopCount (JsNum.ofNat n) = some n := by
  by_cases h : n = 0
  · subst h; rfl
  · obtain ⟨_, h2, h3⟩ := stripZeros_spec n n 0 h (le_refl 0)
    simp [JsNum.ofNat, JsNum.mk, h, loopCount, h2]
    simpa using h3

theorem range_fold (xs ys : List JsVal)
    (h : List.Forall₂ (fun x y => normaliseRecord x = .ok y) xs ys) :
    ∀ k, k ≤ xs.length →
      (List.range k).foldlM normaliseAt (.arr xs) = .ok (.arr (ys.take k ++ xs.drop k)) := by
  have hlen : xs.length = ys.length := h.length_eq
  intro k
  induction k with
  | zero => intro _; simp [pure, Except.pure]
  | succ k ih =>
    intro hk
    have hk' : k < xs.length := hk
    rw [List.range_succ, List.foldlM_append, ih (by omega)]
    have hky : k < ys.length := by omega
    have hx : xs[k]? = some xs[k] := List.getElem?_eq_getElem hk'
    have hy : ys[k]? = some ys[k] := List.getElem?_eq_getElem hky
    have hrel : normaliseRecord xs[k] = .ok ys[k] := by
      have := List.forall₂_iff_get.mp h
      exact this.2 k hk' hky
    have htake : (ys.take k).length = k := by simp; omega
    have hget : (JsVal.arr (ys.take k ++ xs.drop k)).getProp (.index k) = xs[k] := by
      simp [JsVal.getProp, List.getD, List.getElem?_append_right, htake, hx]
    have hset : (ys.take k ++ xs.drop k).set k ys[k] =
        ys.take (k + 1) ++ xs.drop (k + 1) := by
      rw [List.set_append_right _ _ (by omega)]
      simp only [htake, Nat.sub_self]
      rw [List.drop_eq_getElem_cons hk', List.set_cons_zero]
      have ht : ys.take (k + 1) = ys.take k ++ [ys[k]] := by
        rw [List.take_succ, hy]; rfl
      rw [ht, List.append_assoc]
      rfl
    simp [bind, Except.bind, List.foldlM, normaliseAt, hget, hrel, JsVal.setProp, hset, pure,
      Except.pure]

theorem normaliseInt64_arr (xs ys : List JsVal)
    (h : List.Forall₂ (fun x y => normaliseRecord x = .ok y) xs ys) :
    normaliseInt64 (.arr xs) = .ok (.arr ys) := by
  have hlen : xs.length = ys.length := h.length_eq
  by_cases h0 : xs.length = 0
  · have hx : xs = [] := List.length_eq_zero.mp h0
    have hy : ys = [] := List.length_eq_zero.mp (by omega)
    subst hx; subst hy; rfl
  · have hfold := range_fold xs ys h xs.length (le_refl _)
    rw [List.drop_length, List.append_nil] at hfold
    rw [show ys.take xs.length = ys by rw [hlen, List.take_length]] at hfold
    have ha : (JsVal.arr xs).toBoolean = true := rfl
    simp [normaliseInt64, ha, JsVal.length, toBoolean_ofNat, h0, JsVal.toNumber,
      loopCount_ofNat]
    exact hfold

theorem char_le_iff (a b : Char) : a ≤ b ↔ a.toNat ≤ b.toNat := by
  show a.val ≤ b.val ↔ _
  rw [UInt32.le_def]
  rfl

theorem isRadixDigit_ten (c : Char) : isRadixDigit 10 c = c.isDigit := by
  have h0 : ('0' : Char).toNat = 48 := rfl
  have h9 : ('9' : Char).toNat = 57 := rfl
  have ha : ('a' : Char).toNat = 97 := rfl
  have hz : ('z' : Char).toNat = 122 := rfl
  have hA : ('A' : Char).toNat = 65 := rfl
  have hZ : ('Z' : Char).toNat = 90 := rfl
  have hd : c.isDigit = (decide (48 ≤ c.toNat) && decide (c.toNat ≤ 57)) := by
    unfold Char.isDigit
    congr 1
  rw [hd]
  unfold isRadixDigit digitValue
  simp only [char_le_iff, h0, h9, ha, hz, hA, hZ]
  by_cases h1 : 48 ≤ c.toNat ∧ c.toNat ≤ 57
  · rw [if_pos h1]
    simp [h1.1, h1.2]; omega
  · rw [if_neg h1]
    by_cases h2 : 97 ≤ c.toNat ∧ c.toNat ≤ 122
    · rw [if_pos h2]
      have : ¬ (c.toNat - 87 < 10) := by omega
      simp [this]; omega
    · rw [if_neg h2]
      by_cases h3 : 65 ≤ c.toNat ∧ c.toNat ≤ 90
      · rw [if_pos h3]
        have : ¬ (c.toNat - 55 < 10) := by omega
        simp [this]; omega
      · rw [if_neg h3]
        simp; omega

theorem mk_ne_nan (neg : Bool) (m : Nat) (e : Int) : JsNum.mk neg m e ≠ .nan := by
  unfold JsNum.mk
  split <;> simp

theorem ofDecimal_ne_nan (neg : Bool) (m : Nat) (e : Int) : JsNum.ofDecimal neg m e ≠ .nan := by
  unfold JsNum.ofDecimal
  split
  · simp
  · split
    · exact mk_ne_nan _ _ _
    · split
      · simp
      · split
        · simp
        · exact mk_ne_nan _ _ _

theorem ofDecimal_safe (neg : Bool) (n : Nat) (h : n < 2 ^ 53) :
    JsNum.ofDecimal neg n 0 = JsNum.mk neg n 0 := by
  unfold JsNum.ofDecimal
  by_cases h0 : n = 0
  · subst h0; rfl
  · rw [if_neg h0, if_pos]
    simpa using h

theorem digitValue_digit (c : Char) (h : c.isDigit = true) :
    digitValue c = some (c.toNat - 48) := by
  have h0 : ('0' : Char).toNat = 48 := rfl
  have h9 : ('9' : Char).toNat = 57 := rfl
  have hd : c.isDigit = (decide (48 ≤ c.toNat) && decide (c.toNat ≤ 57)) := by
    unfold Char.isDigit
    congr 1
  rw [hd] at h
  simp at h
  unfold digitValue
  rw [if_pos]
  rw [char_le_iff, char_le_iff, h0, h9]
  exact h

theorem radixToNat_ten (ds : List Char) (h : ∀ c ∈ ds, c.isDigit = true) :
    radixToNat 10 ds = digitsToNat ds := by
  unfold radixToNat digitsToNat
  suffices hacc : ∀ acc : Nat,
      ds.foldl (fun a c => 10 * a + (digitValue c).getD 0) acc =
        ds.foldl (fun a c => 10 * a + (c.toNat - 48)) acc from hacc 0
  induction ds with
  | nil => intro acc; rfl
  | cons c rest ih =>
    intro acc
    simp only [List.foldl_cons]
    rw [digitValue_digit c (h c (List.mem_cons_self _ _))]
    exact ih (fun c' hc' => h c' (List.mem_cons_of_mem _ hc')) _

theorem parseInt_nan_iff (s : String) : parseInt s 10 = .nan ↔ startsWithInteger s = false := by
  unfold parseInt startsWithInteger
  generalize (takeSign (s.toList.dropWhile isStrWhiteSpaceChar)) = t
  obtain ⟨neg, cs⟩ := t
  cases cs with
  | nil => simp
  | cons c rest =>
    by_cases hc : c.isDigit = true
    · simp [List.takeWhile, isRadixDigit_ten, hc, ofDecimal_ne_nan]
    · simp [List.takeWhile, isRadixDigit_ten, hc]

theorem parseInt_safe (s : String) (hd : startsWithInteger s = true)
    (hb : digitsToNat (leadingDigits s) < 2 ^ 53) :
    parseInt s 10 = JsNum.mk (hasMinusSign s) (digitsToNat (leadingDigits s)) 0 := by
  have hfun : isRadixDigit 10 = Char.isDigit := funext isRadixDigit_ten
  unfold parseInt
  unfold leadingDigits at hb
  unfold startsWithInteger at hd
  unfold leadingDigits hasMinusSign
  simp only [hfun]
  generalize takeSign (s.toList.dropWhile isStrWhiteSpaceChar) = t at hd hb ⊢
  obtain ⟨neg, cs⟩ := t
  simp only at hd hb ⊢
  have hz : cs.takeWhile Char.isDigit ≠ [] := by
    cases cs with
    | nil => simp at hd
    | cons c rest =>
      have hc : c.isDigit = true := hd
      simp [List.takeWhile, hc]
  have hall : ∀ c ∈ cs.takeWhile Char.isDigit, c.isDigit = true :=
    fun c hc => (List.mem_takeWhile_imp hc)
  simp [hz, hfun, radixToNat_ten _ hall, ofDecimal_safe _ _ hb]

theorem records_normalised (records : List (List (String × JsVal)))
    (hstr : ∀ fs ∈ records, ∀ k v, fieldGet fs k = some v →
      hasProperty int64values k = true → ∃ s, v.toStringMethod = .ok s) :
    ∃ records' : List (List (String × JsVal)),
      List.Forall₂ (fun fs fs' => normaliseRecord (.obj fs) = .ok (.obj fs') ∧
        ∀ k, fieldGet fs' k = (fieldGet fs k).map
          (fun v => if hasProperty int64values k = true then parsedField v else v))
        records records' := by
  induction records with
  | nil => exact ⟨[], List.Forall₂.nil⟩
  | cons fs rest ih =>
    obtain ⟨rest', hrest⟩ := ih (fun fs' h => hstr fs' (List.mem_cons_of_mem _ h))
    obtain ⟨fs', h1, h2⟩ := normaliseRecord_obj fs (hstr fs (List.mem_cons_self _ _))
    exact ⟨fs' :: rest', List.Forall₂.cons ⟨h1, h2⟩ hrest⟩

theorem forall₂_getElem? {α β : Type} {R : α → β → Prop} {xs : List α} {ys : List β}
    (h : List.Forall₂ R xs ys) :
    ∀ (i : Nat) (x : α) (y : β), xs[i]? = some x → ys[i]? = some y → R x y := by
  induction h with
  | nil => intro i x y hx; simp at hx
  | cons hr _ ih =>
    intro i x y hx hy
    cases i with
    | zero =>
      simp at hx hy
      subst hx; subst hy; exact hr
    | succ i =>
      simp at hx hy
      exact ih i x y hx hy

theorem int64FieldSet_hasProperty (k : String) (hk : k ∈ int64FieldSet) :
    hasProperty int64values k = true := by
  simp [int64FieldSet] at hk
  rcases hk with rfl | rfl | rfl | rfl <;> rfl

theorem normaliseInt64_records (records records' : List (List (String × JsVal)))
    (h : List.Forall₂ (fun fs fs' => normaliseRecord (.obj fs) = .ok (.obj fs') ∧
        ∀ k, fieldGet fs' k = (fieldGet fs k).map
          (fun v => if hasProperty int64values k = true then parsedField v else v))
        records records') :
    normaliseInt64 (.arr (records.map .obj)) = .ok (.arr (records'.map .obj)) := by
  apply normaliseInt64_arr
  rw [List.forall₂_map_left_iff, List.forall₂_map_right_iff]
  exact h.imp (fun _ _ hr => hr.1)

theorem fieldGet_mem (fs : List (String × JsVal)) (k : String) (v : JsVal)
    (h : fieldGet fs k = some v) : (k, v) ∈ fs := by
  induction fs with
  | nil => simp [fieldGet] at h
  | cons p rest ih =>
    obtain ⟨a, x⟩ := p
    by_cases e : a = k
    · simp [fieldGet, e] at h
      simp [e, h]
    · simp [fieldGet, e] at h
      exact List.mem_cons_of_mem _ (ih h)

theorem sampleInt64Records_string_forms :
    ∀ fs ∈ sampleInt64Records, ∀ k v, fieldGet fs k = some v →
      hasProperty int64values k = true → ∃ s, v.toStringMethod = .ok s := by
  intro fs hfs k v hv hp
  have hm := fieldGet_mem fs k v hv
  simp [sampleInt64Records] at hfs
  rcases hfs with rfl | rfl
  · simp at hm
    rcases hm with ⟨rfl, rfl⟩ | ⟨rfl, rfl⟩ | ⟨rfl, rfl⟩ <;> exact ⟨_, rfl⟩
  · simp at hm
    rcases hm with ⟨rfl, rfl⟩ | ⟨rfl, rfl⟩ | ⟨rfl, rfl⟩
    · exact ⟨_, rfl⟩
    · exact ⟨_, rfl⟩
    · exact absurd hp (by decide)

/-- Beyond `2 ^ 53` the value of `parseInt` is the nearest binary64 value, printed
by `toString` with its shortest digits. -/
theorem parseInt_beyond_safe_integers :
    parseInt "9007199254740993" 10 = .fin false 9007199254740992 0 ∧
    parseInt "9223372036854775807" 10 = .fin false 9223372036854776 3 ∧
    (parseInt "9223372036854775807" 10).toString = "9223372036854776000" := by
  decide!

/-! ## Lemmas on the destination route -/

theorem destRun_data (host port : JsVal) (chunks : List String) :
    ∀ (rq : Outbound) (d : String) (res : List ResOp) (traces : Nat),
      rq.data = [d] →
      destRun host port ⟨false, some rq, res, traces⟩ (chunks.map DestEvent.data) =
        ⟨false, some { rq with data := [chunks.foldl (fun r s => r ++ s) d] }, res, traces⟩ := by
  induction chunks with
  | nil => intro rq d res traces h; simp [destRun, ← h]
  | cons ch rest ih =>
    intro rq d res traces h
    simp only [destRun, List.map_cons, List.foldl_cons] at ih ⊢
    have hstep : destStep host port ⟨false, some rq, res, traces⟩ (.data ch) =
        ⟨false, some { rq with data := [d ++ ch] }, res, traces⟩ := by
      simp [destStep, h]
    rw [hstep, ih { rq with data := [d ++ ch] } (d ++ ch) res traces rfl]

theorem destRun_append (host port : JsVal) (st : Destinations) (a b : List DestEvent) :
    destRun host port st (a ++ b) = destRun host port (destRun host port st a) b := by
  simp [destRun, List.foldl_append]

theorem destRun_exchange (host port : JsVal) (result : String) (chunks : List String) :
    destRun host port getDestinations
      ([.readFile .null result, .socket, .response] ++ chunks.map DestEvent.data) =
    ⟨false, some ⟨host, "/api/vpc/list/" ++ result, port, true, false, [String.join chunks], 1⟩,
      [], 0⟩ := by
  rw [destRun_append]
  have h1 : destRun host port getDestinations [.readFile .null result, .socket, .response] =
    ⟨false, some ⟨host, "/api/vpc/list/" ++ result, port, true, false, [""], 1⟩, [], 0⟩ := rfl
  rw [h1, destRun_data host port chunks _ "" [] 0 rfl]
  rfl

theorem bodies_append (a b : List ResOp) : bodies (a ++ b) = bodies a ++ bodies b := by
  induction a with
  | nil => rfl
  | cons x rest ih => cases x <;> simp [bodies, ih]

theorem bodies_flatten_const (n : Nat) (b : String) :
    (bodies (List.replicate n [ResOp.write b, ResOp.finish]).flatten).length = n := by
  induction n with
  | zero => rfl
  | succ n ih => simp [List.replicate_succ, bodies, ih]

theorem bodies_flatten_data (ds : List String) :
    (bodies (ds.map (fun d => [ResOp.write d, ResOp.finish])).flatten).length = ds.length := by
  induction ds with
  | nil => rfl
  | cons d rest ih => simp [bodies, ih]

theorem destRun_bound (host port : JsVal) (events : List DestEvent) :
    ∀ st : Destinations,
      dataCount st + (events.filter DestEvent.isResponse).length ≤ 1 →
      timeoutCount st + (events.filter DestEvent.isSocket).length ≤ 1 →
      (bodies (destRun host port st events).res).length ≤
        (bodies st.res).length + (events.filter DestEvent.terminal).length := by
  induction events with
  | nil => intro st _ _; simp [destRun]
  | cons e rest ih =>
    intro st hd ht
    have key : ∀ st' : Destinations,
        destStep host port st e = st' →
        dataCount st' + (rest.filter DestEvent.isResponse).length ≤ 1 →
        timeoutCount st' + (rest.filter DestEvent.isSocket).length ≤ 1 →
        (bodies st'.res).length + (rest.filter DestEvent.terminal).length ≤
          (bodies st.res).length + ((e :: rest).filter DestEvent.terminal).length →
        (bodies (destRun host port st (e :: rest)).res).length ≤
          (bodies st.res).length + ((e :: rest).filter DestEvent.terminal).length := by
      intro st' hst h1 h2 h3
      have := ih st' h1 h2
      simp only [destRun, List.foldl_cons, hst] at this ⊢
      omega
    obtain ⟨reading, request, res, traces⟩ := st
    have he : True := trivial
    have h0 : True := trivial
    cases e with
    | readFile error result =>
      clear he
      cases reading <;> cases request <;> by_cases he : error.toBoolean = true <;>
        refine key _ rfl ?_ ?_ ?_ <;> clear key ih <;>
        (try simp only [List.filter_cons, DestEvent.isResponse, DestEvent.isSocket,
          DestEvent.terminal, if_true, if_false, List.length_cons, he, Bool.false_eq_true]
          at hd ht ⊢) <;>
        generalize (List.filter DestEvent.isResponse rest).length = a at * <;>
        generalize (List.filter DestEvent.isSocket rest).length = b at * <;>
        generalize (List.filter DestEvent.terminal rest).length = c at * <;>
        (try simp [destStep, dataCount, timeoutCount, bodies_append, bodies, he, h0,
          bodies_flatten_const, bodies_flatten_data] at hd ht ⊢) <;>
        (try omega)
    | resError =>
      cases reading <;> cases request <;>
        refine key _ rfl ?_ ?_ ?_ <;> clear key ih <;>
        (try simp only [List.filter_cons, DestEvent.isResponse, DestEvent.isSocket,
          DestEvent.terminal, if_true, if_false, List.length_cons, he, Bool.false_eq_true]
          at hd ht ⊢) <;>
        generalize (List.filter DestEvent.isResponse rest).length = a at * <;>
        generalize (List.filter DestEvent.isSocket rest).length = b at * <;>
        generalize (List.filter DestEvent.terminal rest).length = c at * <;>
        (try simp [destStep, dataCount, timeoutCount, bodies_append, bodies, he, h0,
          bodies_flatten_const, bodies_flatten_data] at hd ht ⊢) <;>
        (try omega)
    | response =>
      cases request <;>
        refine key _ rfl ?_ ?_ ?_ <;> clear key ih <;>
        (try simp only [List.filter_cons, DestEvent.isResponse, DestEvent.isSocket,
          DestEvent.terminal, if_true, if_false, List.length_cons, he, Bool.false_eq_true]
          at hd ht ⊢) <;>
        generalize (List.filter DestEvent.isResponse rest).length = a at * <;>
        generalize (List.filter DestEvent.isSocket rest).length = b at * <;>
        generalize (List.filter DestEvent.terminal rest).length = c at * <;>
        (try simp [destStep, dataCount, timeoutCount, bodies_append, bodies, he, h0,
          bodies_flatten_const, bodies_flatten_data] at hd ht ⊢) <;>
        (try omega)
    | data chunk =>
      cases request <;>
        refine key _ rfl ?_ ?_ ?_ <;> clear key ih <;>
        (try simp only [List.filter_cons, DestEvent.isResponse, DestEvent.isSocket,
          DestEvent.terminal, if_true, if_false, List.length_cons, he, Bool.false_eq_true]
          at hd ht ⊢) <;>
        generalize (List.filter DestEvent.isResponse rest).length = a at * <;>
        generalize (List.filter DestEvent.isSocket rest).length = b at * <;>
        generalize (List.filter DestEvent.terminal rest).length = c at * <;>
        (try simp [destStep, dataCount, timeoutCount, bodies_append, bodies, he, h0,
          bodies_flatten_const, bodies_flatten_data] at hd ht ⊢) <;>
        (try omega)
    | responseEnd =>
      cases request <;>
        refine key _ rfl ?_ ?_ ?_ <;> clear key ih <;>
        (try simp only [List.filter_cons, DestEvent.isResponse, DestEvent.isSocket,
          DestEvent.terminal, if_true, if_false, List.length_cons, he, Bool.false_eq_true]
          at hd ht ⊢) <;>
        generalize (List.filter DestEvent.isResponse rest).length = a at * <;>
        generalize (List.filter DestEvent.isSocket rest).length = b at * <;>
        generalize (List.filter DestEvent.terminal rest).length = c at * <;>
        (try simp [destStep, dataCount, timeoutCount, bodies_append, bodies, he, h0,
          bodies_flatten_const, bodies_flatten_data] at hd ht ⊢) <;>
        (try omega)
    | responseError =>
      cases request <;>
        refine key _ rfl ?_ ?_ ?_ <;> clear key ih <;>
        (try simp only [List.filter_cons, DestEvent.isResponse, DestEvent.isSocket,
          DestEvent.terminal, if_true, if_false, List.length_cons, he, Bool.false_eq_true]
          at hd ht ⊢) <;>
        generalize (List.filter DestEvent.isResponse rest).length = a at * <;>
        generalize (List.filter DestEvent.isSocket rest).length = b at * <;>
        generalize (List.filter DestEvent.terminal rest).length = c at * <;>
        (try simp [destStep, dataCount, timeoutCount, bodies_append, bodies, he, h0,
          bodies_flatten_const, bodies_flatten_data] at hd ht ⊢) <;>
        (try omega)
    | requestError =>
      cases request <;>
        refine key _ rfl ?_ ?_ ?_ <;> clear key ih <;>
        (try simp only [List.filter_cons, DestEvent.isResponse, DestEvent.isSocket,
          DestEvent.terminal, if_true, if_false, List.length_cons, he, Bool.false_eq_true]
          at hd ht ⊢) <;>
        generalize (List.filter DestEvent.isResponse rest).length = a at * <;>
        generalize (List.filter DestEvent.isSocket rest).length = b at * <;>
        generalize (List.filter DestEvent.terminal rest).length = c at * <;>
        (try simp [destStep, dataCount, timeoutCount, bodies_append, bodies, he, h0,
          bodies_flatten_const, bodies_flatten_data] at hd ht ⊢) <;>
        (try omega)
    | socket =>
      cases request <;>
        refine key _ rfl ?_ ?_ ?_ <;> clear key ih <;>
        (try simp only [List.filter_cons, DestEvent.isResponse, DestEvent.isSocket,
          DestEvent.terminal, if_true, if_false, List.length_cons, he, Bool.false_eq_true]
          at hd ht ⊢) <;>
        generalize (List.filter DestEvent.isResponse rest).length = a at * <;>
        generalize (List.filter DestEvent.isSocket rest).length = b at * <;>
        generalize (List.filter DestEvent.terminal rest).length = c at * <;>
        (try simp [destStep, dataCount, timeoutCount, bodies_append, bodies, he, h0,
          bodies_flatten_const, bodies_flatten_data] at hd ht ⊢) <;>
        (try omega)
    | timeout =>
      cases request with
      | none =>
        refine key _ rfl ?_ ?_ ?_ <;> clear key ih <;>
        (try simp only [List.filter_cons, DestEvent.isResponse, DestEvent.isSocket,
          DestEvent.terminal, if_true, if_false, List.length_cons, he, Bool.false_eq_true]
          at hd ht ⊢) <;>
        generalize (List.filter DestEvent.isResponse rest).length = a at * <;>
        generalize (List.filter DestEvent.isSocket rest).length = b at * <;>
        generalize (List.filter DestEvent.terminal rest).length = c at * <;>
        (try simp [destStep, dataCount, timeoutCount, bodies_append, bodies, he, h0,
          bodies_flatten_const, bodies_flatten_data] at hd ht ⊢) <;>
        (try omega)
      | some rq =>
        clear h0
        by_cases h0 : rq.timeoutListeners = 0 <;>
        refine key _ rfl ?_ ?_ ?_ <;> clear key ih <;>
        (try simp only [List.filter_cons, DestEvent.isResponse, DestEvent.isSocket,
          DestEvent.terminal, if_true, if_false, List.length_cons, he, Bool.false_eq_true]
          at hd ht ⊢) <;>
        generalize (List.filter DestEvent.isResponse rest).length = a at * <;>
        generalize (List.filter DestEvent.isSocket rest).length = b at * <;>
        generalize (List.filter DestEvent.terminal rest).length = c at * <;>
        (try simp [destStep, dataCount, timeoutCount, bodies_append, bodies, he, h0,
          bodies_flatten_const, bodies_flatten_data] at hd ht ⊢) <;>
        (try omega)


theorem destStep_counts (host port : JsVal) (st : Destinations) (e : DestEvent) :
    dataCount (destStep host port st e) ≤ dataCount st + (if e.isResponse then 1 else 0) ∧
    timeoutCount (destStep host port st e) ≤ timeoutCount st + (if e.isSocket then 1 else 0) := by
  obtain ⟨reading, request, res, traces⟩ := st
  cases e with
  | readFile error result =>
    cases request <;> cases reading <;> by_cases he : error.toBoolean = true <;>
      simp [destStep, dataCount, timeoutCount, DestEvent.isResponse, DestEvent.isSocket, he]
  | timeout =>
    cases request with
    | none => simp [destStep, dataCount, timeoutCount, DestEvent.isResponse, DestEvent.isSocket]
    | some rq =>
      by_cases h0 : rq.timeoutListeners = 0 <;>
        simp [destStep, dataCount, timeoutCount, DestEvent.isResponse, DestEvent.isSocket, h0]
  | resError =>
    cases request <;> cases reading <;>
      simp [destStep, dataCount, timeoutCount, DestEvent.isResponse, DestEvent.isSocket]
  | response =>
    cases request <;>
      simp [destStep, dataCount, timeoutCount, DestEvent.isResponse, DestEvent.isSocket]
  | data chunk =>
    cases request <;>
      simp [destStep, dataCount, timeoutCount, DestEvent.isResponse, DestEvent.isSocket]
  | responseEnd =>
    cases request <;>
      simp [destStep, dataCount, timeoutCount, DestEvent.isResponse, DestEvent.isSocket]
  | responseError =>
    cases request <;>
      simp [destStep, dataCount, timeoutCount, DestEvent.isResponse, DestEvent.isSocket]
  | requestError =>
    cases request <;>
      simp [destStep, dataCount, timeoutCount, DestEvent.isResponse, DestEvent.isSocket]
  | socket =>
    cases request <;>
      simp [destStep, dataCount, timeoutCount, DestEvent.isResponse, DestEvent.isSocket]

theorem destRun_counts (host port : JsVal) (events : List DestEvent) :
    ∀ st : Destinations,
      dataCount (destRun host port st events) ≤
        dataCount st + (events.filter DestEvent.isResponse).length ∧
      timeoutCount (destRun host port st events) ≤
        timeoutCount st + (events.filter DestEvent.isSocket).length := by
  induction events with
  | nil => intro st; simp [destRun]
  | cons e rest ih =>
    intro st
    have h1 := destStep_counts host port st e
    have h2 := ih (destStep host port st e)
    simp only [destRun, List.foldl_cons] at h2 ⊢
    simp only [List.filter_cons]
    cases hr : e.isResponse <;> cases hs : e.isSocket <;> simp [hr, hs] at h1 ⊢ <;> omega

theorem destStep_bodies (host port : JsVal) (st : Destinations) (e : DestEvent)
    (hd : dataCount st ≤ 1) (ht : timeoutCount st ≤ 1) :
    bodies (destStep host port st e).res = bodies st.res ++ (bodyWritten st e).toList := by
  obtain ⟨reading, request, res, traces⟩ := st
  cases request with
  | none =>
    cases e with
    | readFile error result =>
      cases reading <;> by_cases he : error.toBoolean = true <;>
        simp [destStep, bodyWritten, bodies_append, bodies, he]
    | resError =>
      cases reading <;> simp [destStep, bodyWritten]
    | _ =>
      simp [destStep, bodyWritten, upstreamBody, dataCount, timeoutCount, bodies_append, bodies]
  | some rq =>
    obtain ⟨h, pa, po, en, ab, data, tl⟩ := rq
    simp only [dataCount, timeoutCount] at hd ht
    have hdata : data = [] ∨ ∃ d, data = [d] := by
      cases data with
      | nil => exact Or.inl rfl
      | cons d rest =>
        cases rest with
        | nil => exact Or.inr ⟨d, rfl⟩
        | cons _ _ => simp at hd
    have htl : tl = 0 ∨ tl = 1 := by omega
    cases e with
    | readFile error result =>
      cases reading <;> by_cases he : error.toBoolean = true <;>
        simp [destStep, bodyWritten, bodies_append, bodies, he]
    | resError =>
      cases reading <;> simp [destStep, bodyWritten]
    | _ =>
      rcases hdata with rfl | ⟨d, rfl⟩ <;> rcases htl with rfl | rfl <;>
        simp [destStep, bodyWritten, upstreamBody, dataCount, timeoutCount, bodies_append,
          bodies]

theorem join_concat (l : List String) (c : String) : String.join (l ++ [c]) = String.join l ++ c := by
  simp [String.join, List.foldl_append]

theorem upstreamBody_eq (host port : JsVal) (events : List DestEvent) :
    ((events.filter DestEvent.isResponse).length ≤ 1) →
    ∀ b, upstreamBody (destRun host port getDestinations events) = some b →
      ∃ before after, events = before ++ DestEvent.response :: after ∧
        b = String.join (after.filterMap DestEvent.chunk) := by
  induction events using List.reverseRecOn with
  | nil => intro _ b hb; simp [destRun, upstreamBody, getDestinations] at hb
  | append_singleton init e ih =>
    intro hr b hb
    simp only [List.filter_append, List.length_append] at hr
    have hcount := (destRun_counts host port init getDestinations).1
    rw [destRun_append] at hb
    simp only [destRun, List.foldl_cons, List.foldl_nil] at hb
    generalize hst : List.foldl (destStep host port) getDestinations init = st at hb
    have hst' : destRun host port getDestinations init = st := hst
    rw [hst'] at ih hcount
    have keep : ∀ b', upstreamBody st = some b' → e.chunk = none → e.isResponse = false →
        ∃ before after, init ++ [e] = before ++ DestEvent.response :: after ∧
          b' = String.join (after.filterMap DestEvent.chunk) := by
      intro b' hb' hc hresp
      have hr' : (init.filter DestEvent.isResponse).length ≤ 1 := by omega
      obtain ⟨before, after, h1, h2⟩ := ih hr' b' hb'
      refine ⟨before, after ++ [e], by simp [h1], ?_⟩
      simp [List.filterMap_append, hc, h2]
    obtain ⟨reading, request, res, traces⟩ := st
    cases e with
    | readFile error result =>
      cases reading <;> by_cases he : error.toBoolean = true
      · exact keep b (by simpa [destStep, upstreamBody, he] using hb) rfl rfl
      · exact keep b (by simpa [destStep, upstreamBody, he] using hb) rfl rfl
      · exact keep b (by simpa [destStep, upstreamBody, he] using hb) rfl rfl
      · simp [destStep, upstreamBody, he] at hb
    | resError =>
      cases reading
      · exact keep b (by simpa [destStep, upstreamBody] using hb) rfl rfl
      · exact keep b (by simpa [destStep, upstreamBody] using hb) rfl rfl
    | response =>
      cases request with
      | none => simp [destStep, upstreamBody] at hb
      | some rq =>
        simp only [DestEvent.isResponse, List.filter_cons, List.filter_nil, if_true,
          List.length_singleton] at hr
        have h0 : (init.filter DestEvent.isResponse).length = 0 := by omega
        simp only [dataCount, getDestinations, h0] at hcount
        have hnil : rq.data = [] := List.length_eq_zero.mp (by omega)
        simp [destStep, upstreamBody, hnil] at hb
        exact ⟨init, [], rfl, by simp [← hb, String.join]⟩
    | data chunk =>
      cases request with
      | none => simp [destStep, upstreamBody] at hb
      | some rq =>
        simp only [destStep, upstreamBody] at hb
        cases hdata : rq.data with
        | nil => simp [hdata] at hb
        | cons d ds =>
          simp [hdata] at hb
          have hr' : (init.filter DestEvent.isResponse).length ≤ 1 := by omega
          obtain ⟨before, after, h1, h2⟩ := ih hr' d (by simp [upstreamBody, hdata])
          refine ⟨before, after ++ [.data chunk], by simp [h1], ?_⟩
          rw [List.filterMap_append]
          simp only [List.filterMap_cons, DestEvent.chunk, List.filterMap_nil]
          rw [join_concat, ← h2, hb]
    | responseEnd =>
      cases request with
      | none => simp [destStep, upstreamBody] at hb
      | some rq => exact keep b (by simpa [destStep, upstreamBody] using hb) rfl rfl
    | responseError =>
      cases request with
      | none => simp [destStep, upstreamBody] at hb
      | some rq => exact keep b (by simpa [destStep, upstreamBody] using hb) rfl rfl
    | requestError =>
      cases request with
      | none => simp [destStep, upstreamBody] at hb
      | some rq => exact keep b (by simpa [destStep, upstreamBody] using hb) rfl rfl
    | socket =>
      cases request with
      | none => simp [destStep, upstreamBody] at hb
      | some rq => exact keep b (by simpa [destStep, upstreamBody] using hb) rfl rfl
    | timeout =>
      cases request with
      | none => simp [destStep, upstreamBody] at hb
      | some rq =>
        by_cases h0 : rq.timeoutListeners = 0
        · exact keep b (by simpa [destStep, upstreamBody, h0] using hb) rfl rfl
        · exact keep b (by simpa [destStep, upstreamBody, h0] using hb) rfl rfl

/-! ## The claims -/

/-- C1, as stated, fails: with one connected socket, a completion whose response
is the string `abc`, which is no JSON text, makes `socketResponse` throw a
`SyntaxError` out of `JSON.parse`; no `exec` event is emitted. -/
theorem socketResponse_invalid_json_emits_nothing :
    socketResponse
      ⟨[⟨[envEvent (.str "dev") (.str "1.0") .null], channelBindings⟩], some 0, .null, []⟩
      (.obj [("method", .str "getFlows"), ("params", .arr []), ("id", .num (.fin false 7 0))])
      .null (.str "abc") = .error (.syntaxError "Unexpected token") := rfl

/-- C1, amended: when the response is no string, or is a string that
`JSON.parse` accepts (`responseParams response = ok params`: the parsed value of
a string, the response itself otherwise), `socketResponse` emits exactly one
`exec` event, on the tracked socket and nowhere else, carrying the error and
`{method: request.method, params, id: request.id}`. -/
theorem socketResponse_emits_one_exec (self : WebAppServer) (sid : Nat)
    (request : List (String × JsVal)) (error response params : JsVal)
    (hs : self.socket = some sid) (hp : responseParams response = .ok params) :
    (∀ text, response = .str text → JSON.parse text = .ok params) ∧
    (response.isString = false → params = response) ∧
    ∃ after : WebAppServer,
      socketResponse self (.obj request) error response = .ok after ∧
      after.socket = self.socket ∧ after.credential = self.credential ∧
      after.apiCalls = self.apiCalls ∧
      ∀ j, after.sockets[j]? =
        if j = sid then
          self.sockets[j]?.map (fun s => { s with
            emitted := s.emitted ++
              [⟨"exec", [error, .obj [("method", (fieldGet request "method").getD .undefined),
                ("params", params), ("id", (fieldGet request "id").getD .undefined)]]⟩] })
        else self.sockets[j]? := by
  refine ⟨?_, ?_, _, socketResponse_ok self sid request error response params hs hp,
    rfl, rfl, rfl, ?_⟩
  · intro text ht
    subst ht
    exact hp
  · intro hns
    cases response <;> simp_all [responseParams, JsVal.isString]
  · intro j
    by_cases h : j = sid
    · subst h
      simp [WebAppServer.emitted, modifyAt_get?_self, execEvent]
    · simp [WebAppServer.emitted, modifyAt_get?_other _ _ _ _ h, h]

/-- Witness of `socketResponse_emits_one_exec`: a JSON object text as response. -/
theorem socketResponse_emits_one_exec_witness :
    (WebAppServer.mk [⟨[], channelBindings⟩] (some 0) .null []).socket = some 0 ∧
    responseParams (.str "\x7b\"a\": [1, 2]\x7d") =
      .ok (.obj [("a", .arr [.num (.fin false 1 0), .num (.fin false 2 0)])]) ∧
    (∀ text, JsVal.str "\x7b\"a\": [1, 2]\x7d" = .str text → JSON.parse text =
      .ok (.obj [("a", .arr [.num (.fin false 1 0), .num (.fin false 2 0)])])) ∧
    ((JsVal.str "\x7b\"a\": [1, 2]\x7d").isString = false →
      JsVal.obj [("a", .arr [.num (.fin false 1 0), .num (.fin false 2 0)])] =
        .str "\x7b\"a\": [1, 2]\x7d") ∧
    ∃ after : WebAppServer,
      socketResponse (WebAppServer.mk [⟨[], channelBindings⟩] (some 0) .null [])
        (.obj [("method", .str "m"), ("id", .str "i")]) .null (.str "\x7b\"a\": [1, 2]\x7d") =
          .ok after ∧
      after.socket = some 0 ∧ after.credential = .null ∧ after.apiCalls = [] ∧
      ∀ j, after.sockets[j]? =
        if j = 0 then
          ([⟨[], channelBindings⟩] : List Socket)[j]?.map (fun s => { s with
            emitted := s.emitted ++
              [⟨"exec", [.null, .obj [("method",
                  (fieldGet [("method", .str "m"), ("id", .str "i")] "method").getD .undefined),
                ("params", .obj [("a", .arr [.num (.fin false 1 0), .num (.fin false 2 0)])]),
                ("id",
                  (fieldGet [("method", .str "m"), ("id", .str "i")] "id").getD .undefined)]]⟩] })
        else ([⟨[], channelBindings⟩] : List Socket)[j]? :=
  ⟨rfl, rfl, socketResponse_emits_one_exec
    (WebAppServer.mk [⟨[], channelBindings⟩] (some 0) .null []) 0
    [("method", .str "m"), ("id", .str "i")] .null (.str "\x7b\"a\": [1, 2]\x7d")
    (.obj [("a", .arr [.num (.fin false 1 0), .num (.fin false 2 0)])]) rfl rfl⟩

/-- C2, as stated, fails: a record whose `startTime` field is `null`, and a
record whose field `constructor` is `null` beside a `startTime` of `5`, make the
manager completion throw a `TypeError` out of `toString`; the field is not
replaced and `socketResponse` is not reached. -/
theorem manager_completion_throws_without_string_form :
    runCallback sampleServer .manager (.obj sampleRequest) .null
      (.arr [.obj [("startTime", .null)]]) =
      .error (.typeError "Cannot call method 'toString' of null") ∧
    runCallback sampleServer .manager (.obj sampleRequest) .null
      (.arr [.obj [("constructor", .null), ("startTime", .str "5")]]) =
      .error (.typeError "Cannot call method 'toString' of null") :=
  ⟨rfl, rfl⟩

/-- C2, amended: when the manager result is a sequence of records in which every
value the loop converts has a string form, the manager completion hands
`socketResponse` a sequence of as many records in which every field named
`lastStarted`, `lastStopped`, `startTime` or `endTime` that was present holds
`parseInt(value.toString(), 10)` of its prior value, at every index: the
binary64 value nearest to the integer read from the leading digits of the
string form, which is that integer itself when it is below `2 ^ 53`. -/
theorem manager_int64_fields_parsed (self : WebAppServer) (request error : JsVal)
    (records : List (List (String × JsVal)))
    (hstr : ∀ fs ∈ records, ∀ k v, fieldGet fs k = some v →
      hasProperty int64values k = true → ∃ s, v.toStringMethod = .ok s) :
    ∃ records' : List (List (String × JsVal)),
      records'.length = records.length ∧
      normaliseInt64 (.arr (records.map .obj)) = .ok (.arr (records'.map .obj)) ∧
      runCallback self .manager request error (.arr (records.map .obj)) =
        socketResponse self request error (.arr (records'.map .obj)) ∧
      ∀ (i : Nat) (fs fs' : List (String × JsVal)),
        records[i]? = some fs → records'[i]? = some fs' →
        ∀ k ∈ int64FieldSet, ∀ (v : JsVal) (s : String),
          fieldGet fs k = some v → v.toStringMethod = .ok s →
          fieldGet fs' k = some (.num (parseInt s 10)) ∧
          (startsWithInteger s = true → digitsToNat (leadingDigits s) < 2 ^ 53 →
            parseInt s 10 = JsNum.mk (hasMinusSign s) (digitsToNat (leadingDigits s)) 0) := by
  obtain ⟨records', h⟩ := records_normalised records hstr
  have hn := normaliseInt64_records records records' h
  refine ⟨records', h.length_eq.symm, hn, ?_, ?_⟩
  · simp [runCallback, hn]
  · intro i fs fs' hfs hfs' k hk v s hv hs
    have hr := (forall₂_getElem? h i fs fs' hfs hfs').2 k
    refine ⟨?_, parseInt_safe s⟩
    rw [hr, hv]
    simp [int64FieldSet_hasProperty k hk, parsedField, hs]

/-- Witness of `manager_int64_fields_parsed`: two records, with an `Int64`
instance, a string of digits beyond `2 ^ 53`, a number and a string without
digits in their Int64-set fields. -/
theorem manager_int64_fields_parsed_witness :
    (∀ fs ∈ sampleInt64Records, ∀ k v, fieldGet fs k = some v →
      hasProperty int64values k = true → ∃ s, v.toStringMethod = .ok s) ∧
    ∃ records' : List (List (String × JsVal)),
      records'.length = sampleInt64Records.length ∧
      normaliseInt64 (.arr (sampleInt64Records.map .obj)) = .ok (.arr (records'.map .obj)) ∧
      runCallback sampleServer .manager (.obj sampleRequest) .null
          (.arr (sampleInt64Records.map .obj)) =
        socketResponse sampleServer (.obj sampleRequest) .null (.arr (records'.map .obj)) ∧
      ∀ (i : Nat) (fs fs' : List (String × JsVal)),
        sampleInt64Records[i]? = some fs → records'[i]? = some fs' →
        ∀ k ∈ int64FieldSet, ∀ (v : JsVal) (s : String),
          fieldGet fs k = some v → v.toStringMethod = .ok s →
          fieldGet fs' k = some (.num (parseInt s 10)) ∧
          (startsWithInteger s = true → digitsToNat (leadingDigits s) < 2 ^ 53 →
            parseInt s 10 = JsNum.mk (hasMinusSign s) (digitsToNat (leadingDigits s)) 0) :=
  ⟨sampleInt64Records_string_forms,
    manager_int64_fields_parsed sampleServer (.obj sampleRequest) .null sampleInt64Records
      sampleInt64Records_string_forms⟩

/-- C3, the code at the failing input: a record field named `constructor`, which
is outside the Int64 field set, is overwritten by the normaliser. -/
theorem normaliser_converts_inherited_name :
    normaliseInt64 (.arr [.obj [("name", .str "flow1"), ("constructor", .str "abc")]]) =
      .ok (.arr [.obj [("name", .str "flow1"), ("constructor", .num .nan)]]) := rfl

/-- C4, as stated, fails: connection A receives a request, connection B
connects, the backend completes the request of A; the `exec` event is emitted on
B, whose outbound stream is then `env`, `exec`, and nothing is emitted on A. -/
theorem stale_completion_reaches_new_connection :
    (run (.str "dev") (.str "1.0") (.init .null)
      [.connection,
        .message 0 "metadata" (.obj [("method", .str "getFlows"), ("params", .arr []),
          ("id", .num (.fin false 7 0))]),
        .connection,
        .completion 0 .null (.arr [])]).map
      (fun st => st.sockets.map (fun s => s.emitted.map (fun e => e.event))) =
    .ok [["env"], ["env", "exec"]] := rfl

/-- C4, amended: a completion emits on the socket tracked when it runs. When
connection A receives a request on channel `c`, connection B then connects and
the backend then completes the request of A (with a response that the
normaliser and `JSON.parse` accept), exactly one `exec` event, the envelope of
that request, is emitted on B after its `env` announcement, and nothing is
emitted on A. -/
theorem stale_completion_emits_on_tracked_socket (name version : JsVal) (self : WebAppServer)
    (c : Listener) (request : List (String × JsVal)) (error response normalised params : JsVal)
    (hn : (if c = .manager then normaliseInt64 response else .ok response) = .ok normalised)
    (hp : responseParams normalised = .ok params) :
    run name version self
      [.connection, .message self.sockets.length c.channel (.obj request), .connection,
        .completion self.apiCalls.length error response] =
    .ok
      { sockets := self.sockets ++
          [⟨[envEvent name version self.credential], channelBindings⟩,
            ⟨[envEvent name version self.credential, execEvent request error params],
              channelBindings⟩],
        socket := some (self.sockets.length + 1),
        credential := self.credential,
        apiCalls := self.apiCalls ++
          [⟨c.channel, if c = .gateway then .str "apikey" else version,
            (fieldGet request "method").getD .undefined,
            (fieldGet request "params").getD .undefined, c, .obj request⟩] } := by
  simp only [run, List.foldlM_cons, List.foldlM_nil, connection_step, bind, Except.bind]
  rw [message_step name version _ self.sockets.length
    ⟨[envEvent name version self.credential], channelBindings⟩ c request (by simp) rfl]
  simp only [connection_step, WebAppServer.callApi, step, List.getElem?_concat_length,
    runCallback_eq, hn, Except.bind]
  rw [socketResponse_ok _ (self.sockets.length + 1) request error normalised params (by simp) hp]
  simp only [pure, Except.pure, WebAppServer.emitted]
  congr 2
  · have := modifyAt_append_length (fun s : Socket => { s with
        emitted := s.emitted ++ [execEvent request error params] })
      (self.sockets ++ [⟨[envEvent name version self.credential], channelBindings⟩])
      ⟨[envEvent name version self.credential], channelBindings⟩
    simp only [List.length_append, List.length_singleton] at this
    rw [this]
    simp
  · simp

/-- Witness of `stale_completion_emits_on_tracked_socket`: a manager request
whose result is a sequence of two records. -/
theorem stale_completion_emits_on_tracked_socket_witness :
    (if Listener.manager = .manager then normaliseInt64 (.arr (sampleRecords.map .obj))
      else .ok (.arr (sampleRecords.map .obj))) =
      .ok (.arr [.obj [("name", .str "flow1"),
          ("startTime", .num (.fin false 1386 9)), ("endTime", .num .nan)],
        .obj [("lastStarted", .num (.fin false 42 0)), ("runs", .null)]]) ∧
    responseParams (.arr [.obj [("name", .str "flow1"),
          ("startTime", .num (.fin false 1386 9)), ("endTime", .num .nan)],
        .obj [("lastStarted", .num (.fin false 42 0)), ("runs", .null)]]) =
      .ok (.arr [.obj [("name", .str "flow1"),
          ("startTime", .num (.fin false 1386 9)), ("endTime", .num .nan)],
        .obj [("lastStarted", .num (.fin false 42 0)), ("runs", .null)]]) ∧
    run (.str "dev") (.str "1.0") (.init .null)
      [.connection,
        .message (WebAppServer.init .null).sockets.length Listener.manager.channel
          (.obj sampleRequest),
        .connection,
        .completion (WebAppServer.init .null).apiCalls.length .null
          (.arr (sampleRecords.map .obj))] =
    .ok
      { sockets := (WebAppServer.init .null).sockets ++
          [⟨[envEvent (.str "dev") (.str "1.0") (WebAppServer.init .null).credential],
              channelBindings⟩,
            ⟨[envEvent (.str "dev") (.str "1.0") (WebAppServer.init .null).credential,
                execEvent sampleRequest .null
                  (.arr [.obj [("name", .str "flow1"),
                      ("startTime", .num (.fin false 1386 9)), ("endTime", .num .nan)],
                    .obj [("lastStarted", .num (.fin false 42 0)), ("runs", .null)]])],
              channelBindings⟩],
        socket := some ((WebAppServer.init .null).sockets.length + 1),
        credential := (WebAppServer.init .null).credential,
        apiCalls := (WebAppServer.init .null).apiCalls ++
          [⟨Listener.manager.channel,
            if Listener.manager = .gateway then .str "apikey" else .str "1.0",
            (fieldGet sampleRequest "method").getD .undefined,
            (fieldGet sampleRequest "params").getD .undefined, .manager,
            .obj sampleRequest⟩] } :=
  ⟨rfl, rfl,
    stale_completion_emits_on_tracked_socket (.str "dev") (.str "1.0") (.init .null) .manager
      sampleRequest .null (.arr (sampleRecords.map .obj))
      (.arr [.obj [("name", .str "flow1"),
          ("startTime", .num (.fin false 1386 9)), ("endTime", .num .nan)],
        .obj [("lastStarted", .num (.fin false 42 0)), ("runs", .null)]])
      (.arr [.obj [("name", .str "flow1"),
          ("startTime", .num (.fin false 1386 9)), ("endTime", .num .nan)],
        .obj [("lastStarted", .num (.fin false 42 0)), ("runs", .null)]])
      rfl rfl⟩

/-- C5, as stated, fails: after a successful credential read, a socket timeout
followed by an error on the request makes the handler call `res.write` twice,
the second time after `res.end`; and an upstream that sends a chunk and then
neither ends nor times out makes it write no body. -/
theorem destinations_two_writes_or_none :
    (destRun (.str "accounts.example") (.num (.fin false 443 0)) getDestinations
      [.readFile .null "key", .socket, .timeout, .requestError]).res =
      [.write "network", .finish, .write "network", .finish] ∧
    (destRun (.str "accounts.example") (.num (.fin false 443 0)) getDestinations
      [.readFile .null "key", .socket, .response, .data "[]"]).res = [] :=
  ⟨rfl, rfl⟩

/-- C5, amended: in a run with at most one response callback and one `socket`
event, every event makes the handler write exactly the body given by
`bodyWritten`: one body for a terminal event delivered while its listener is
registered (`false` for the failed credential read, the upstream body, which is
the concatenation of the chunks received since the response callback, for `end`
on the response, `network` for an error on the response or the request and for
the socket timeout) and none for any other event; so the handler never writes
more bodies than terminal events were delivered. -/
theorem destinations_one_body_per_terminal_event (host port : JsVal)
    (events : List DestEvent) (e : DestEvent)
    (hr : ((events ++ [e]).filter DestEvent.isResponse).length ≤ 1)
    (hs : ((events ++ [e]).filter DestEvent.isSocket).length ≤ 1) :
    bodies (destRun host port getDestinations (events ++ [e])).res =
      bodies (destRun host port getDestinations events).res ++
        (bodyWritten (destRun host port getDestinations events) e).toList ∧
    (e.terminal = false → bodyWritten (destRun host port getDestinations events) e = none) ∧
    (∀ b, bodyWritten (destRun host port getDestinations events) e = some b →
      b = "false" ∨ b = "network" ∨
        ∃ before after, events = before ++ DestEvent.response :: after ∧
          b = String.join (after.filterMap DestEvent.chunk)) ∧
    (bodies (destRun host port getDestinations (events ++ [e])).res).length ≤
      ((events ++ [e]).filter DestEvent.terminal).length := by
  have hcount := destRun_counts host port events getDestinations
  simp only [List.filter_append, List.length_append] at hr hs
  have hd : dataCount (destRun host port getDestinations events) ≤ 1 := by
    have := hcount.1
    simp only [dataCount, getDestinations] at this ⊢
    omega
  have ht : timeoutCount (destRun host port getDestinations events) ≤ 1 := by
    have := hcount.2
    simp only [timeoutCount, getDestinations] at this ⊢
    omega
  refine ⟨?_, ?_, ?_, ?_⟩
  · rw [destRun_append]
    exact destStep_bodies host port _ e hd ht
  · intro hterm
    cases e <;> simp_all [bodyWritten, DestEvent.terminal]
  · intro b hb
    cases e <;> simp [bodyWritten] at hb
    · exact Or.inl hb.2.symm
    · exact Or.inr (Or.inr (upstreamBody_eq host port events (by omega) b hb))
    · exact Or.inr (Or.inl hb.2.symm)
    · exact Or.inr (Or.inl hb.2.symm)
    · exact Or.inr (Or.inl hb.2.symm)
  · have := destRun_bound host port (events ++ [e]) getDestinations
      (by simp only [dataCount, getDestinations, List.filter_append, List.length_append]; omega)
      (by simp only [timeoutCount, getDestinations, List.filter_append, List.length_append]; omega)
    simpa [getDestinations, bodies] using this

/-- Witness of `destinations_one_body_per_terminal_event`: the `end` of an
upstream response that delivered two chunks. -/
theorem destinations_one_body_per_terminal_event_witness :
    ((sampleExchange ++ [DestEvent.responseEnd]).filter DestEvent.isResponse).length ≤ 1 ∧
    ((sampleExchange ++ [DestEvent.responseEnd]).filter DestEvent.isSocket).length ≤ 1 ∧
    (bodies (destRun (.str "accounts.example") (.num (.fin false 443 0)) getDestinations
        (sampleExchange ++ [DestEvent.responseEnd])).res =
      bodies (destRun (.str "accounts.example") (.num (.fin false 443 0)) getDestinations
          sampleExchange).res ++
        (bodyWritten (destRun (.str "accounts.example") (.num (.fin false 443 0))
          getDestinations sampleExchange) .responseEnd).toList ∧
    (DestEvent.responseEnd.terminal = false →
      bodyWritten (destRun (.str "accounts.example") (.num (.fin false 443 0))
        getDestinations sampleExchange) .responseEnd = none) ∧
    (∀ b, bodyWritten (destRun (.str "accounts.example") (.num (.fin false 443 0))
        getDestinations sampleExchange) .responseEnd = some b →
      b = "false" ∨ b = "network" ∨
        ∃ before after, sampleExchange = before ++ DestEvent.response :: after ∧
          b = String.join (after.filterMap DestEvent.chunk)) ∧
    (bodies (destRun (.str "accounts.example") (.num (.fin false 443 0)) getDestinations
        (sampleExchange ++ [DestEvent.responseEnd])).res).length ≤
      ((sampleExchange ++ [DestEvent.responseEnd]).filter DestEvent.terminal).length) :=
  ⟨by decide, by decide,
    destinations_one_body_per_terminal_event (.str "accounts.example")
      (.num (.fin false 443 0)) sampleExchange .responseEnd (by decide) (by decide)⟩

/-- C6: the `GET /destinations` handler writes `false` and makes no outbound
request when the credential read fails; aborts the request and writes `network`
when the socket timeout fires; writes `network` when the request or the upstream
response raises an error; and writes the concatenation, in arrival order, of
the chunks received when the upstream response ends. Each outcome is taken both
before any upstream response and after chunks of a response have arrived. -/
theorem destinations_failure_taxonomy (host port : JsVal) (result : String) :
    (∀ fields, destRun host port getDestinations [.readFile (.obj fields) result] =
      ⟨false, none, [.write "false", .finish], 0⟩) ∧
    destRun host port getDestinations [.readFile .null result, .socket, .timeout] =
      ⟨false, some ⟨host, "/api/vpc/list/" ++ result, port, true, true, [], 1⟩,
        [.write "network", .finish], 0⟩ ∧
    destRun host port getDestinations [.readFile .null result, .socket, .requestError] =
      ⟨false, some ⟨host, "/api/vpc/list/" ++ result, port, true, false, [], 1⟩,
        [.write "network", .finish], 0⟩ ∧
    (∀ chunks : List String,
      destRun host port getDestinations
        ([.readFile .null result, .socket, .response] ++ chunks.map DestEvent.data ++
          [.timeout]) =
      ⟨false, some ⟨host, "/api/vpc/list/" ++ result, port, true, true,
        [String.join chunks], 1⟩, [.write "network", .finish], 0⟩) ∧
    (∀ chunks : List String,
      (destRun host port getDestinations
        ([.readFile .null result, .socket, .response] ++ chunks.map DestEvent.data ++
          [.requestError])).res = [.write "network", .finish]) ∧
    (∀ chunks : List String,
      (destRun host port getDestinations
        ([.readFile .null result, .socket, .response] ++ chunks.map DestEvent.data ++
          [.responseError])).res = [.write "network", .finish]) ∧
    ∀ chunks : List String,
      (destRun host port getDestinations
        ([.readFile .null result, .socket, .response] ++ chunks.map DestEvent.data ++
          [.responseEnd])).res = [.write (String.join chunks), .finish] := by
  refine ⟨fun _ => rfl, rfl, rfl, ?_, ?_, ?_, ?_⟩ <;>
  · intro chunks
    rw [destRun_append, destRun_exchange]
    rfl

/-- C7, as stated, fails: the string form `12abc` is no valid base-10 integer,
yet the field receives `12`, not the not-a-number value; and a `null` field
makes the completion throw a `TypeError`, so that no envelope is emitted. -/
theorem normaliser_prefix_parse_and_null_throw :
    isBase10Integer "12abc" = false ∧
    normaliseInt64 (.arr [.obj [("startTime", .str "12abc")]]) =
      .ok (.arr [.obj [("startTime", .num (.fin false 12 0))]]) ∧
    runCallback
      ⟨[⟨[envEvent (.str "dev") (.str "1.0") .null], channelBindings⟩], some 0, .null, []⟩
      .manager (.obj [("method", .str "getFlows"), ("params", .arr []), ("id", .str "7")])
      .null (.arr [.obj [("lastStopped", .null)]]) =
      .error (.typeError "Cannot call method 'toString' of null") :=
  ⟨rfl, rfl, rfl⟩

/-- C7, amended: when every value the loop converts has a string form, the
manager completion raises no error and emits the response envelope, and each
Int64-set field holds `parseInt` of its string form: the not-a-number value
exactly when the string form, after leading white space and an optional sign,
does not start with a decimal digit, and otherwise the binary64 value nearest to
the integer read from its leading digits, which is that integer itself when it
is below `2 ^ 53`. -/
theorem manager_completion_best_effort (self : WebAppServer) (sid : Nat)
    (request : List (String × JsVal)) (error : JsVal)
    (records : List (List (String × JsVal)))
    (hs : self.socket = some sid)
    (hstr : ∀ fs ∈ records, ∀ k v, fieldGet fs k = some v →
      hasProperty int64values k = true → ∃ s, v.toStringMethod = .ok s) :
    ∃ records' : List (List (String × JsVal)),
      records'.length = records.length ∧
      runCallback self .manager (.obj request) error (.arr (records.map .obj)) =
        .ok (self.emitted sid (execEvent request error (.arr (records'.map .obj)))) ∧
      ∀ (i : Nat) (fs fs' : List (String × JsVal)),
        records[i]? = some fs → records'[i]? = some fs' →
        ∀ k ∈ int64FieldSet, ∀ (v : JsVal) (s : String),
          fieldGet fs k = some v → v.toStringMethod = .ok s →
          fieldGet fs' k = some (.num (parseInt s 10)) ∧
          (parseInt s 10 = .nan ↔ startsWithInteger s = false) ∧
          (startsWithInteger s = true → digitsToNat (leadingDigits s) < 2 ^ 53 →
            parseInt s 10 = JsNum.mk (hasMinusSign s) (digitsToNat (leadingDigits s)) 0) := by
  obtain ⟨records', h⟩ := records_normalised records hstr
  have hn := normaliseInt64_records records records' h
  refine ⟨records', h.length_eq.symm, ?_, ?_⟩
  · simp only [runCallback, hn]
    exact socketResponse_ok self sid request error _ _ hs rfl
  · intro i fs fs' hfs hfs' k hk v s hv hs
    have hr := (forall₂_getElem? h i fs fs' hfs hfs').2 k
    refine ⟨?_, parseInt_nan_iff s, parseInt_safe s⟩
    rw [hr, hv]
    simp [int64FieldSet_hasProperty k hk, parsedField, hs]

/-- Witness of `manager_completion_best_effort`: two records, one of them with a
field whose string form `abc` starts with no digit. -/
theorem manager_completion_best_effort_witness :
    sampleServer.socket = some 0 ∧
    (∀ fs ∈ sampleInt64Records, ∀ k v, fieldGet fs k = some v →
      hasProperty int64values k = true → ∃ s, v.toStringMethod = .ok s) ∧
    ∃ records' : List (List (String × JsVal)),
      records'.length = sampleInt64Records.length ∧
      runCallback sampleServer .manager (.obj sampleRequest) .null
          (.arr (sampleInt64Records.map .obj)) =
        .ok (sampleServer.emitted 0
          (execEvent sampleRequest .null (.arr (records'.map .obj)))) ∧
      ∀ (i : Nat) (fs fs' : List (String × JsVal)),
        sampleInt64Records[i]? = some fs → records'[i]? = some fs' →
        ∀ k ∈ int64FieldSet, ∀ (v : JsVal) (s : String),
          fieldGet fs k = some v → v.toStringMethod = .ok s →
          fieldGet fs' k = some (.num (parseInt s 10)) ∧
          (parseInt s 10 = .nan ↔ startsWithInteger s = false) ∧
          (startsWithInteger s = true → digitsToNat (leadingDigits s) < 2 ^ 53 →
            parseInt s 10 = JsNum.mk (hasMinusSign s) (digitsToNat (leadingDigits s)) 0) :=
  ⟨rfl, sampleInt64Records_string_forms,
    manager_completion_best_effort sampleServer 0 sampleRequest .null sampleInt64Records rfl
      sampleInt64Records_string_forms⟩

/-- C8: a connection event makes the new socket the tracked one, leaves the
earlier sockets as they were, emits exactly one `env` event on the new socket
carrying `name`, `version` and the value of `Api.credential` at that moment, and
registers listeners for exactly the five channels on it. -/
theorem connection_tracks_new_socket (name version : JsVal) (self : WebAppServer) :
    step name version self .connection = .ok
      { sockets := self.sockets ++
          [⟨[⟨"env", [.obj [("name", name), ("version", version),
              ("credential", self.credential)]]⟩],
            [("metadata", .metadata), ("far", .far), ("gateway", .gateway),
              ("monitor", .monitor), ("manager", .manager)]⟩],
        socket := some self.sockets.length,
        credential := self.credential,
        apiCalls := self.apiCalls } := by
  rw [connection_step]
  rfl

/-- C9: the `POST /credential` callback sets `Api.credential` to `apiKey` and
writes exactly the body `true` when the write succeeded (`error` is `null`);
it leaves `Api.credential` unchanged and writes exactly the plain-text message
when the write failed (`error` is an error object); one body in both cases. -/
theorem postCredential_outcomes (self : WebAppServer) (apiKey : JsVal) :
    postCredential self apiKey .null =
        ({ self with credential := apiKey }, [.write "true", .finish]) ∧
      (∀ fields, postCredential self apiKey (.obj fields) =
        (self, [.write "Error: Could not write credentials file.", .finish])) ∧
      ∀ error, (bodies (postCredential self apiKey error).2).length = 1 := by
  refine ⟨rfl, fun _ => rfl, fun error => ?_⟩
  unfold postCredential
  split <;> rfl

/-- C10: after a connection, a request on channel `c` makes the listener call
the capability named `c` exactly once, with `request.method` and
`request.params` and with `version` as context (the constant `apikey` for
`gateway`); the completion of that call runs the Int64 normaliser exactly when
`c` is `manager` and then calls `socketResponse` with the request, the error and
the response, which for the other four channels is the response as delivered. -/
theorem channel_wiring (name version : JsVal) (self : WebAppServer) (c : Listener)
    (request : List (String × JsVal)) :
    ∃ connected called : WebAppServer,
      step name version self .connection = .ok connected ∧
      step name version connected (.message self.sockets.length c.channel (.obj request)) =
        .ok called ∧
      called = { connected with
        apiCalls := self.apiCalls ++
          [⟨c.channel, if c = .gateway then .str "apikey" else version,
            (fieldGet request "method").getD .undefined,
            (fieldGet request "params").getD .undefined, c, .obj request⟩] } ∧
      ∀ error response : JsVal,
        step name version called (.completion self.apiCalls.length error response) =
          (if c = .manager then normaliseInt64 response else .ok response).bind
            (fun r => socketResponse called (.obj request) error r) := by
  refine ⟨_, _, connection_step name version self, ?_, rfl, ?_⟩
  · rw [message_step name version _ self.sockets.length
      ⟨[envEvent name version self.credential], channelBindings⟩ c request (by simp) rfl]
    simp [WebAppServer.callApi]
  · intro error response
    simp only [step, List.getElem?_concat_length]
    exact runCallback_eq _ c (.obj request) error response

end Cdap
